import Mathlib

/-!
# Sparse texture streaming (`jni/gfx.c`): the transfer pipeline

A shallow embedding of the block copier `blockblit2d`, the staging-slot operations
`xfer_init`, `xfer_start`, `xfer_blit`, `xfer_upload`, `xfer_finish`, and of `gfx_init`,
followed by the properties established about them.

Conventions of the embedding.

* A C `int` is a mathematical integer together with a range check: an arithmetic
  operation whose result leaves the 32-bit range is a fault (signed overflow is undefined
  behaviour in C), as are a division by zero, a `memcpy` whose `int` length is negative,
  an access through a null pointer, a read outside an array and a failed `assert`.
* A buffer is a function from byte offsets (relative to the pointer that designates it)
  to bytes.  Distinct buffers are distinct functions, so source and destination never
  alias, and offsets are not bounded: a buffer is as large as the accesses require.
* Calls into the OpenGL driver and into the other collaborators only matter through the
  values they hand back; these values are inputs of the embedded functions.
-/

set_option linter.unusedVariables false

namespace SparseDemo

/-! ## C arithmetic -/

/-- Ways in which an execution of the C code stops without producing a result. -/
inductive Fault where
  | assertion
  | divByZero
  | overflow
  | badLength
  | nullPointer
  | badIndex
  deriving DecidableEq, Repr

/-- Outcome of a C computation: a value, or the fault that stopped it. -/
abbrev Exec (α : Type) := Except Fault α

instance instDecEqExec {α : Type} [DecidableEq α] : DecidableEq (Exec α)
  | .ok a, .ok b => if h : a = b then isTrue (by rw [h]) else isFalse (by intro e; cases e; exact h rfl)
  | .error a, .error b =>
      if h : a = b then isTrue (by rw [h]) else isFalse (by intro e; cases e; exact h rfl)
  | .ok _, .error _ => isFalse (by intro e; cases e)
  | .error _, .ok _ => isFalse (by intro e; cases e)

/-- Smallest value of a C `int`. -/
def INT_MIN : Int := -2147483648

/-- Largest value of a C `int`. -/
def INT_MAX : Int := 2147483647

/-- The integer `v` is representable as a C `int`. -/
def InInt (v : Int) : Prop := INT_MIN ≤ v ∧ v ≤ INT_MAX

instance instDecidableInInt (v : Int) : Decidable (InInt v) := by
  unfold InInt; exact inferInstance

/-- Result of an `int` operation whose mathematical value is `v`. -/
def cint (v : Int) : Exec Int :=
  if InInt v then .ok v else .error .overflow

/-- C `a * b` on `int`. -/
def imul (a b : Int) : Exec Int := cint (a * b)

/-- C `a + b` on `int`. -/
def iadd (a b : Int) : Exec Int := cint (a + b)

/-- C `a / b` on `int`: truncation toward zero, undefined for a zero divisor. -/
def idiv (a b : Int) : Exec Int :=
  if b = 0 then .error .divByZero else cint (a.tdiv b)

/-- Conversion of an `int` to `uint64_t`. -/
def toUInt64 (v : Int) : Nat := (v % 18446744073709551616).toNat

/-- Conversion of an `int` to `unsigned`. -/
def toUInt32 (v : Int) : Nat := (v % 4294967296).toNat

/-- Read of element `i` of a C array holding the values `l`. -/
def aread (l : List Int) (i : Int) : Exec Int :=
  if i < 0 then .error .badIndex
  else
    match l.get? i.toNat with
    | some v => .ok v
    | none => .error .badIndex

/-! ## Memory -/

/-- Contents of a buffer, by byte offset from its base pointer. -/
abbrev Mem := Int → UInt8

/-- One call of `memcpy`: destination offset, source offset and length. -/
structure Memcpy where
  dst_off : Int
  src_off : Int
  len : Int
  deriving DecidableEq, Repr

/-- A pointer to a buffer: `none` is the null pointer, `some m` designates the buffer whose
contents are `m`. -/
abbrev Ptr := Option Mem

/-- The call `memcpy(dst + dst_off, src + src_off, n)` with an `int` length `n`; the result
is the new contents of the destination buffer. -/
def memcpy (dst : Ptr) (dst_off : Int) (src : Ptr) (src_off : Int) (n : Int) : Exec Mem :=
  match dst, src with
  | some d, some s =>
    if n < 0 then .error .badLength
    else .ok (fun a => if dst_off ≤ a ∧ a < dst_off + n then s (src_off + (a - dst_off)) else d a)
  | _, _ => .error .nullPointer

/-! ## Block copier -/

/-- State of the copy loop: the destination buffer and the `memcpy` calls issued so far. -/
structure Blit where
  dst : Ptr
  calls : List Memcpy

/-- Body of the loop of `blockblit2d` for block-row `row`. -/
def blockblit2d_row (src : Ptr) (src_pitch src_x src_y dst_pitch block_width block_height
    block_size cols : Int) (st : Blit) (row : Int) : Exec Blit := do
  let d ← imul row dst_pitch
  let q ← idiv src_y block_height
  let r ← iadd q row
  let s1 ← imul r src_pitch
  let p ← idiv src_x block_width
  let s2 ← imul p block_size
  let n ← imul cols block_size
  let m ← memcpy st.dst d src (s1 + s2) n
  pure ⟨some m, st.calls ++ [⟨d, s1 + s2, n⟩]⟩

/-- Result of `blockblit2d`: the destination buffer, the `memcpy` calls and the return value. -/
structure BlitResult where
  dst : Ptr
  calls : List Memcpy
  ret : Int

/-- The function `blockblit2d`. -/
def blockblit2d (src : Ptr) (src_pitch src_x src_y : Int) (dst : Ptr) (dst_pitch : Int)
    (block_width block_height block_size width height : Int) : Exec BlitResult := do
  let cols ← idiv width block_width
  let rows ← idiv height block_height
  let st ← (List.range rows.toNat).foldlM
    (fun st (row : Nat) =>
      blockblit2d_row src src_pitch src_x src_y dst_pitch block_width block_height
        block_size cols st (row : Int))
    (⟨dst, []⟩ : Blit)
  let ret ← imul rows cols
  pure ⟨st.dst, st.calls, ret⟩

/-! ## Staging slot -/

/-- The C structure `struct xfer`.  Pointers and GL object names are natural numbers,
`0` being the null pointer. -/
structure Xfer where
  size : Nat
  pbo_buffer : Nat
  pbo : Nat
  syncpt : Nat
  src_ptr : Nat
  tex_format : Int
  src_x : Int
  src_y : Int
  width : Int
  height : Int
  src_pitch : Int
  dst_tex : Nat
  dst_x : Int
  dst_y : Int
  page_width : Int
  page_height : Int
  page_depth : Int
  block_width : Int
  block_height : Int
  block_size : Int
  deriving DecidableEq, Repr

/-- A slot after `memset(..., 0, ...)`. -/
def Xfer.zero : Xfer :=
  ⟨0, 0, 0, 0, 0, 0, 0, 0, 0, 0, 0, 0, 0, 0, 0, 0, 0, 0, 0, 0⟩

/-- The function `xfer_init`.  The driver supplies the buffer name `pbo` written by
`glGenBuffers` and the pointer `ptr` returned by `glMapBufferRange` (`0` when the mapping
fails). -/
def xfer_init (xfer : Xfer) (xfer_size : Nat) (pbo ptr : Nat) : Xfer × Int :=
  let xfer := { xfer with size := xfer_size }
  let xfer := { xfer with syncpt := 0 }
  let xfer := { xfer with pbo := pbo }
  let xfer := { xfer with pbo_buffer := ptr }
  (xfer, 0)

/-- The C expression `width/block_width * height/block_height * block_size/8` on `int`,
which associates to the left. -/
def payload_bytes (width block_width height block_height block_size : Int) : Exec Int := do
  let t1 ← idiv width block_width
  let t2 ← imul t1 height
  let t3 ← idiv t2 block_height
  let t4 ← imul t3 block_size
  idiv t4 8

/-- Conversion of an `unsigned` to `int`. -/
def toInt32 (v : Nat) : Int :=
  if (v % 4294967296 : Nat) ≤ 2147483647 then ((v % 4294967296 : Nat) : Int)
  else ((v % 4294967296 : Nat) : Int) - 4294967296

/-- The function `xfer_start`: the slot afterwards and the outcome of the call. -/
def xfer_start (xfer : Xfer) (dst_tex tex_format src_ptr : Nat) (src_pitch src_x src_y
    dst_x dst_y block_width block_height block_size width height : Int) : Xfer × Exec Int :=
  match payload_bytes width block_width height block_height block_size with
  | .error e => (xfer, .error e)
  | .ok v =>
    let size_bytes : Nat := toUInt64 v
    if ¬ size_bytes < xfer.size then (xfer, .error .assertion)
    else if ¬ xfer.syncpt = 0 then (xfer, .error .assertion)
    else
      let xfer := { xfer with dst_tex := dst_tex }
      let xfer := { xfer with tex_format := toInt32 tex_format }
      let xfer := { xfer with src_ptr := src_ptr }
      let xfer := { xfer with src_pitch := src_pitch }
      let xfer := { xfer with src_x := src_x, src_y := src_y }
      let xfer := { xfer with dst_x := dst_x, dst_y := dst_y }
      let xfer := { xfer with block_width := block_width }
      let xfer := { xfer with block_height := block_height }
      let xfer := { xfer with block_size := block_size }
      let xfer := { xfer with width := width }
      let xfer := { xfer with height := height }
      (xfer, .ok 0)

/-- The destination pitch computed by `xfer_blit`. -/
def xfer_dst_pitch (xfer : Xfer) : Exec Int := do
  let c ← idiv xfer.width xfer.block_width
  let b ← idiv xfer.block_size 8
  imul c b

/-- The function `xfer_blit`.  `src` is the buffer `xfer->src_ptr` points to and `dst` the
mapped buffer `xfer->pbo_buffer` points to; the result carries the new contents of the
mapped buffer, the `memcpy` calls issued and the value returned by `blockblit2d`, which
the C function discards before it returns `0`.  The slot structure is not written. -/
def xfer_blit (xfer : Xfer) (src dst : Mem) : Exec BlitResult := do
  let dst_pitch ← xfer_dst_pitch xfer
  let bs ← idiv xfer.block_size 8
  blockblit2d
    (if xfer.src_ptr = 0 then none else some src) xfer.src_pitch
    xfer.src_x xfer.src_y
    (if xfer.pbo_buffer = 0 then none else some dst) dst_pitch
    xfer.block_width xfer.block_height bs
    xfer.width xfer.height

/-- Arguments of the `glCompressedTexSubImage2D` call of `xfer_upload`. -/
structure Upload where
  dst_tex : Nat
  pbo : Nat
  dst_x : Int
  dst_y : Int
  width : Int
  height : Int
  tex_format : Int
  bytes : Nat
  deriving DecidableEq, Repr

/-- The function `xfer_upload`.  `fence` is the sync object returned by `glFenceSync`
(`0` when the driver fails to create one). -/
def xfer_upload (xfer : Xfer) (fence : Nat) : Xfer × Exec Upload :=
  match payload_bytes xfer.width xfer.block_width xfer.height xfer.block_height
      xfer.block_size with
  | .error e => (xfer, .error e)
  | .ok v =>
    let bytes : Nat := toUInt64 v
    let call : Upload :=
      ⟨xfer.dst_tex, xfer.pbo, xfer.dst_x, xfer.dst_y, xfer.width, xfer.height,
        xfer.tex_format, bytes⟩
    let xfer := { xfer with syncpt := fence }
    (xfer, .ok call)

/-- Modelled from the spec: the answer of `glClientWaitSync`, a `GLenum` whose constants are
declared in the GL headers (not part of the sources).  An answer is represented by the
`case` of the `switch` in `xfer_finish` that it selects; `other` is any further value. -/
inductive WaitResult where
  | ALREADY_SIGNALED
  | CONDITION_SATISFIED
  | TIMEOUT_EXPIRED
  | WAIT_FAILED
  | other
  deriving DecidableEq, Repr

/-- Modelled from the spec: the value found in `sync_status` after `glGetSynciv`, by the
`case` it selects; `other` covers every further value, among them the initial `0` that
stays when the driver writes nothing. -/
inductive SyncStatus where
  | SIGNALED
  | UNSIGNALED
  | other
  deriving DecidableEq, Repr

/-- The `switch(cond)` of `xfer_finish`.  The `GL_TIMEOUT_EXPIRED` case assigns `0` and has
no `break`, so control continues into the following cases, which assign `-1`. -/
def client_wait_status (cond : WaitResult) : Int :=
  match cond with
  | .ALREADY_SIGNALED => 1
  | .CONDITION_SATISFIED => 1
  | .TIMEOUT_EXPIRED =>
    let status : Int := 0
    let status : Int := -1
    status
  | .WAIT_FAILED => -1
  | .other => -1

/-- The `switch(sync_status)` of `xfer_finish`. -/
def poll_status (sync_status : SyncStatus) : Int :=
  match sync_status with
  | .SIGNALED => 1
  | .UNSIGNALED => 0
  | .other => -1

/-- The function `xfer_finish`: the slot afterwards and the returned status.  `cond` is what
`glClientWaitSync` answers if it is called and `sync_status` what `glGetSynciv` leaves in
its output if it is called. -/
def xfer_finish (xfer : Xfer) (server_wait client_wait flush : Int) (client_timeout_ns : Nat)
    (cond : WaitResult) (sync_status : SyncStatus) : Xfer × Int :=
  let status : Int := 0
  let status : Int := if client_wait ≠ 0 then client_wait_status cond else status
  let status : Int :=
    if client_wait = 0 ∧ status = 0 then poll_status sync_status else status
  if status = 1 then ({ xfer with syncpt := 0 }, status) else (xfer, status)

/-! ## Sequences of slot operations -/

/-- A staging slot together with the contents of its mapped buffer. -/
structure Slot where
  xfer : Xfer
  buffer : Mem

/-- One operation on a staging slot, with its arguments and the answers of the driver. -/
inductive Op where
  | start (dst_tex tex_format src_ptr : Nat) (src_pitch src_x src_y dst_x dst_y
      block_width block_height block_size width height : Int)
  | blit (src : Mem)
  | upload (fence : Nat)
  | finish (server_wait client_wait flush : Int) (client_timeout_ns : Nat)
      (cond : WaitResult) (sync_status : SyncStatus)

/-- Apply one operation to a slot; a fault means that the operation is rejected. -/
def step (s : Slot) (op : Op) : Exec Slot :=
  match op with
  | .start dst_tex tex_format src_ptr src_pitch src_x src_y dst_x dst_y block_width
      block_height block_size width height =>
    match xfer_start s.xfer dst_tex tex_format src_ptr src_pitch src_x src_y dst_x dst_y
        block_width block_height block_size width height with
    | (x, .ok _) => .ok { s with xfer := x }
    | (_, .error e) => .error e
  | .blit src =>
    match xfer_blit s.xfer src s.buffer with
    | .ok r => .ok { s with buffer := r.dst.getD s.buffer }
    | .error e => .error e
  | .upload fence =>
    match xfer_upload s.xfer fence with
    | (x, .ok _) => .ok { s with xfer := x }
    | (_, .error e) => .error e
  | .finish server_wait client_wait flush client_timeout_ns cond sync_status =>
    .ok { s with xfer :=
      (xfer_finish s.xfer server_wait client_wait flush client_timeout_ns cond
        sync_status).1 }

/-- Apply a sequence of operations, stopping at the first one that is rejected. -/
def run (s : Slot) (ops : List Op) : Exec Slot :=
  ops.foldlM step s

/-! ## Pipeline initialisation -/

/-- Number of staging slots. -/
def XFER_NUM_BUFFERS : Nat := 16

/-- Capacity of each staging slot, in bytes. -/
def XFER_BUFFER_SIZE : Nat := 2 * 1024 * 1024

/-- Modelled from the spec: the candidate compressed format (ASTC 8x8),
`GL_COMPRESSED_RGBA_ASTC_8x8_KHR`.  The constant is declared in the GL headers, which are
not part of the sources; it is only compared with the formats the driver reports. -/
def GL_COMPRESSED_RGBA_ASTC_8x8_KHR : Int := 0x93B7

/-- The C structure `struct gfx`. -/
structure Gfx where
  program : Nat
  vbo : Nat
  vao : Nat
  texture : Nat
  texmmap : Nat
  tex_format : Int
  tex_width : Int
  tex_height : Int
  page_width : Int
  page_height : Int
  page_depth : Int
  block_width : Int
  block_height : Int
  block_size : Int
  xfers : List Xfer
  deriving DecidableEq, Repr

/-- A pipeline after `memset(gfx, 0, sizeof(struct gfx))`. -/
def Gfx.zero : Gfx :=
  ⟨0, 0, 0, 0, 0, 0, 0, 0, 0, 0, 0, 0, 0, 0, List.replicate XFER_NUM_BUFFERS Xfer.zero⟩

/-- What the driver reports about one compressed format: its identifier, its block
geometry, and the arrays of `num_page_sizes` virtual page sizes. -/
structure FormatInfo where
  fmt : Int
  block_x : Int
  block_y : Int
  block_sz : Int
  page_size_x : List Int
  page_size_y : List Int
  page_size_z : List Int
  deriving DecidableEq, Repr

/-- The collaborators of `gfx_init`, by the values they hand back. -/
structure Driver where
  /-- Value of `texmmap_ptr(texmmap)`; `0` when the image is not mapped. -/
  texmmap_ptr : Nat
  /-- Bytes of the mapped image, by offset from `texmmap_ptr`. -/
  file : Mem
  /-- Buffer name written by `glGenBuffers` for slot `i`. -/
  buffer_name : Nat → Nat
  /-- Pointer returned by `glMapBufferRange` for slot `i`; `0` when the mapping fails. -/
  buffer_map : Nat → Nat
  /-- Initial contents of the mapped buffer of slot 0. -/
  buffer_mem : Mem
  /-- Compressed formats reported by the driver, in the order of the enumeration. -/
  formats : List FormatInfo
  /-- Name written by `glGenVertexArrays`. -/
  vao : Nat
  /-- Program returned by `shader_compile`; `0` when compilation fails. -/
  program : Nat
  /-- Name written by `glGenTextures`. -/
  texture : Nat
  /-- Sync object returned by `glFenceSync`. -/
  fence : Nat
  /-- Answer of `glClientWaitSync`. -/
  cond : WaitResult
  /-- Value left by `glGetSynciv`. -/
  sync_status : SyncStatus

/-- The loop of `gfx_init` that initialises the staging slots: the slots afterwards, and
whether some `xfer_init` returned a non-zero value. -/
def init_xfers (drv : Driver) (xfers : List Xfer) : List Xfer × Bool :=
  (List.range XFER_NUM_BUFFERS).foldl
    (fun (acc : List Xfer × Bool) (i : Nat) =>
      if acc.2 then acc
      else
        let r := xfer_init (acc.1.getD i Xfer.zero) XFER_BUFFER_SIZE (drv.buffer_name i)
          (drv.buffer_map i)
        (acc.1.set i r.1, decide (r.2 ≠ 0)))
    (xfers, false)

/-- Local variables of `gfx_init` set by the format enumeration. -/
structure Geometry where
  pgsz_index : Int
  page_width : Int
  page_height : Int
  page_depth : Int
  block_width : Int
  block_height : Int
  block_size : Int
  deriving DecidableEq, Repr

/-- Body of the format enumeration loop of `gfx_init` for one reported format. -/
def discover_format (tex_format : Int) (g : Geometry) (f : FormatInfo) : Exec Geometry := do
  let g ←
    if tex_format = f.fmt then do
      let pgsz_index : Int := 0
      let page_width ← aread f.page_size_x pgsz_index
      let page_height ← aread f.page_size_y pgsz_index
      let page_depth ← aread f.page_size_z pgsz_index
      pure (⟨pgsz_index, page_width, page_height, page_depth, f.block_x, f.block_y,
        f.block_sz⟩ : Geometry)
    else pure g
  let _ ← aread f.page_size_x 0
  let _ ← aread f.page_size_y 0
  let _ ← aread f.page_size_z 0
  pure g

/-- The 24-bit little-endian field of the image header that starts at byte `i`. -/
def header_field (file : Mem) (i : Int) : Int :=
  ((file i).toNat : Int) + ((file (i + 1)).toNat : Int) * 256
    + ((file (i + 2)).toNat : Int) * 65536

/-- Result of a call of `gfx_init` that returns. -/
structure InitResult where
  gfx : Gfx
  /-- Contents of the mapped buffer of slot 0. -/
  buffer : Mem
  /-- The `memcpy` calls of the streaming transfer. -/
  calls : List Memcpy
  ret : Int

/-- The streaming transfer at the end of `gfx_init`, on slot 0. -/
def init_transfer (drv : Driver) (gfx : Gfx) (page_height : Int) : Exec InitResult := do
  let xfer := gfx.xfers.getD 0 Xfer.zero
  let c ← idiv gfx.tex_width gfx.block_width
  let b ← idiv gfx.block_size 8
  let src_pitch ← imul c b
  let src_x ← imul 16 gfx.page_width
  let src_y ← imul 8 page_height
  let width ← imul 4 gfx.page_width
  let height ← imul 4 gfx.page_width
  let started := xfer_start xfer gfx.texture (toUInt32 gfx.tex_format) drv.texmmap_ptr
    src_pitch src_x src_y 0 0 gfx.block_width gfx.block_height gfx.block_size width height
  let _ ← started.2
  let xfer := started.1
  let blit ← xfer_blit xfer drv.file drv.buffer_mem
  let uploaded := xfer_upload xfer drv.fence
  let _ ← uploaded.2
  let xfer := uploaded.1
  let finished := xfer_finish xfer 1 0 0 0 drv.cond drv.sync_status
  let xfer := finished.1
  pure ⟨{ gfx with xfers := gfx.xfers.set 0 xfer }, blit.dst.getD drv.buffer_mem,
    blit.calls, 0⟩

/-- The part of `gfx_init` that follows the shader compilation: the image header is read,
the sparse texture is created, the geometry is recorded in the structure and the streaming
transfer is run. -/
def gfx_init_texture (drv : Driver) (gfx : Gfx) (tex_format : Int) (g : Geometry) :
    Exec InitResult :=
  let w := header_field drv.file 7
  let h := header_field drv.file 10
  let gfx := { gfx with
    texture := drv.texture
    tex_format := tex_format
    tex_width := w
    tex_height := h
    page_width := g.page_width
    page_height := g.page_height
    page_depth := g.page_depth
    block_width := g.block_width
    block_height := g.block_height
    block_size := g.block_size }
  init_transfer drv gfx g.page_height

/-- The part of `gfx_init` that follows the initialisation of the slots: the compressed
formats are enumerated in search of the candidate `tex_format`, the vertex array is
created and the shader is compiled; a program of `0` makes `gfx_init` return `-1`. -/
def gfx_init_formats (drv : Driver) (gfx : Gfx) (tex_format : Int) : Exec InitResult :=
  match drv.formats.foldlM (discover_format tex_format) (⟨-1, 0, 0, 0, 0, 0, 0⟩ : Geometry) with
  | .error e => .error e
  | .ok g =>
    let gfx := { gfx with vao := drv.vao, program := drv.program }
    if gfx.program = 0 then .ok ⟨gfx, drv.buffer_mem, [], -1⟩
    else gfx_init_texture drv gfx tex_format g

/-- The function `gfx_init`.  `texmmap` is the pointer argument; `drv` gives the answers of
the collaborators. -/
def gfx_init (drv : Driver) (texmmap : Nat) : Exec InitResult :=
  let gfx := { Gfx.zero with texmmap := texmmap }
  if drv.texmmap_ptr = 0 then .ok ⟨gfx, drv.buffer_mem, [], -1⟩
  else
    let slots := init_xfers drv gfx.xfers
    let gfx := { gfx with xfers := slots.1 }
    if slots.2 then .ok ⟨gfx, drv.buffer_mem, [], -1⟩
    else gfx_init_formats drv gfx GL_COMPRESSED_RGBA_ASTC_8x8_KHR

/-- The block copy of `gfx_page_commit` for page `(page_x, page_y)`: `file` holds the bytes
of the mapped image and `pagebuffer` the initial contents of the local page buffer.  The
source pointer is `texptr + header_size` with `header_size = 16`. -/
def gfx_page_commit (gfx : Gfx) (page_x page_y : Int) (file pagebuffer : Mem) :
    Exec BlitResult := do
  let header_size : Int := 16
  let ptr : Mem := fun a => file (header_size + a)
  let c ← idiv gfx.tex_width gfx.block_width
  let b ← idiv gfx.block_size 8
  let src_pitch ← imul c b
  let dst_pitch ← imul (512 / 8) b
  let src_x ← imul page_x gfx.page_width
  let src_y ← imul page_y gfx.page_height
  blockblit2d (some ptr) src_pitch src_x src_y (some pagebuffer) dst_pitch
    gfx.block_width gfx.block_height b gfx.page_width gfx.page_height

/-! ## Auxiliary notions used in the statements -/

/-- A sample source buffer: the byte at offset `a` is `a mod 251`. -/
def sample_image : Mem := fun a => UInt8.ofNat (a.toNat % 251)

/-- A buffer filled with zero bytes. -/
def zero_buffer : Mem := fun _ => 0

/-- A freshly initialised slot: `xfer_init` applied to a zeroed structure, with buffer name
`1` and a mapping at address `4096`. -/
def fresh_xfer : Xfer := (xfer_init Xfer.zero XFER_BUFFER_SIZE 1 4096).1

/-- A slot on which `xfer_start` has recorded a transfer of 32 x 32 texels in 8 x 8 blocks
of 128 bits. -/
def described_xfer : Xfer :=
  (xfer_start fresh_xfer 1 37815 4096 512 128 64 0 0 8 8 128 32 32).1

/-- A slot with an outstanding transfer: `xfer_upload` has stored the sync object `7`. -/
def in_flight_xfer : Xfer := { fresh_xfer with syncpt := 7 }

/-- A freshly initialised slot with its mapped buffer. -/
def fresh_slot : Slot := ⟨fresh_xfer, zero_buffer⟩

/-- The operation is an `xfer_upload`. -/
def Op.isUpload : Op → Bool
  | .upload _ => true
  | _ => false

/-- The operation is an `xfer_start`. -/
def Op.isStart : Op → Bool
  | .start .. => true
  | _ => false

/-- A sample `xfer_start`: 32 x 32 texels in 8 x 8 blocks of 128 bits. -/
def sample_start : Op := .start 1 37815 4096 512 128 64 0 0 8 8 128 32 32

/-- A sample image file: a 16-byte header (magic, block dimensions 8 x 8 x 1, and the sizes
512 x 256 x 1 as 24-bit little-endian fields) followed by data bytes, the byte at offset
`a` being `a mod 251`. -/
def sample_file : Mem := fun a =>
  if 0 ≤ a ∧ a < 16 then
    ([0x13, 0xAB, 0xA1, 0x5C, 8, 8, 1, 0, 2, 0, 0, 1, 0, 1, 0, 0] : List UInt8).getD a.toNat 0
  else UInt8.ofNat (a.toNat % 251)

/-- A driver for which every step of `gfx_init` succeeds: the image is mapped, every slot
gets a mapping, ASTC 8x8 is reported with blocks of 8 x 8 texels in 128 bits and pages of
16 x 16 x 1 texels, and the shader compiles. -/
def sample_driver : Driver where
  texmmap_ptr := 4096
  file := sample_file
  buffer_name := fun i => i + 1
  buffer_map := fun i => 1048576 * (i + 1)
  buffer_mem := zero_buffer
  formats := [⟨0x8E8C, 4, 4, 128, [256], [128], [1]⟩, ⟨0x93B7, 8, 8, 128, [16], [16], [1]⟩]
  vao := 1
  program := 3
  texture := 2
  fence := 7
  cond := .TIMEOUT_EXPIRED
  sync_status := .UNSIGNALED

/-- The pipeline fields that `gfx_init` records with the sample driver: a texture of
512 x 256 texels, pages of 16 x 16 x 1 texels and blocks of 8 x 8 texels in 128 bits. -/
def sample_gfx : Gfx :=
  { Gfx.zero with
    tex_format := GL_COMPRESSED_RGBA_ASTC_8x8_KHR
    tex_width := 512
    tex_height := 256
    page_width := 16
    page_height := 16
    page_depth := 1
    block_width := 8
    block_height := 8
    block_size := 128 }

/-- The sample driver, except that the buffer mapping of slot 1 fails. -/
def map_fail_driver : Driver :=
  { sample_driver with buffer_map := fun i => if i = 1 then 0 else 1048576 * (i + 1) }

/-- The sample driver, except that ASTC 8x8 is not among the reported formats. -/
def no_astc_driver : Driver :=
  { sample_driver with formats := [⟨0x8E8C, 4, 4, 128, [256], [128], [1]⟩] }

/-- The buffer `m` after block-row `i` has been copied into it: `n` bytes from offset
`(q + i) * sp + so` of `s` to offset `i * dp`. -/
def copy_row (s : Mem) (sp dp q so n : Int) (m : Mem) (i : Nat) : Mem :=
  fun a =>
    if (i : Int) * dp ≤ a ∧ a < (i : Int) * dp + n then
      s ((q + (i : Int)) * sp + so + (a - (i : Int) * dp))
    else m a

/-- The `memcpy` call that `blockblit2d` issues for block-row `i`. -/
def row_call (sp dp q so n : Int) (i : Nat) : Memcpy :=
  ⟨(i : Int) * dp, (q + (i : Int)) * sp + so, n⟩

/-- The arithmetic of one iteration of `blockblit2d` for block-row `row` is defined: no
`int` operation overflows and the `memcpy` length is not negative. -/
def RowDefined (src_pitch src_x src_y dst_pitch block_width block_height block_size
    cols row : Int) : Prop :=
  InInt (row * dst_pitch) ∧ InInt (src_y.tdiv block_height) ∧
  InInt (src_y.tdiv block_height + row) ∧
  InInt ((src_y.tdiv block_height + row) * src_pitch) ∧
  InInt (src_x.tdiv block_width) ∧ InInt (src_x.tdiv block_width * block_size) ∧
  InInt (cols * block_size) ∧ 0 ≤ cols * block_size

/-- A call of `blockblit2d` is defined: the block dimensions are not zero, the quotients
and the returned product are representable, and every iteration is defined. -/
def BlitDefined (src_pitch src_x src_y dst_pitch block_width block_height block_size
    width height : Int) : Prop :=
  block_width ≠ 0 ∧ block_height ≠ 0 ∧
  InInt (width.tdiv block_width) ∧ InInt (height.tdiv block_height) ∧
  InInt (height.tdiv block_height * width.tdiv block_width) ∧
  ∀ row : Int, 0 ≤ row → row < height.tdiv block_height →
    RowDefined src_pitch src_x src_y dst_pitch block_width block_height block_size
      (width.tdiv block_width) row

/-! ## Lemmas on the arithmetic -/

theorem bind_eq_ok {α β : Type} (x : Exec α) (f : α → Exec β) (b : β) :
    (x >>= f) = .ok b ↔ ∃ a, x = .ok a ∧ f a = .ok b := by
  cases x with
  | error e => simp [bind, Except.bind]
  | ok a => simp [bind, Except.bind]

theorem cint_eq_ok (v w : Int) : cint v = .ok w ↔ InInt v ∧ w = v := by
  unfold cint
  by_cases h : InInt v
  · simp [h, eq_comm]
  · simp [h]

theorem imul_eq_ok (a b w : Int) : imul a b = .ok w ↔ InInt (a * b) ∧ w = a * b :=
  cint_eq_ok _ _

theorem iadd_eq_ok (a b w : Int) : iadd a b = .ok w ↔ InInt (a + b) ∧ w = a + b :=
  cint_eq_ok _ _

theorem idiv_eq_ok (a b w : Int) :
    idiv a b = .ok w ↔ b ≠ 0 ∧ InInt (a.tdiv b) ∧ w = a.tdiv b := by
  unfold idiv
  by_cases h : b = 0
  · simp [h]
  · simp [h, cint_eq_ok]

theorem memcpy_eq_ok (d s : Mem) (dst_off src_off n : Int) (m : Mem) :
    memcpy (some d) dst_off (some s) src_off n = .ok m ↔
      0 ≤ n ∧ m = fun a =>
        if dst_off ≤ a ∧ a < dst_off + n then s (src_off + (a - dst_off)) else d a := by
  unfold memcpy
  by_cases h : n < 0
  · simp [h]
  · simp [h, eq_comm]
    omega

/-! ## Lemmas on the block copier -/

theorem blockblit2d_row_eq_ok (s d : Mem) (calls : List Memcpy)
    (src_pitch src_x src_y dst_pitch bw bh bs cols : Int) (i : Nat) (st : Blit) :
    blockblit2d_row (some s) src_pitch src_x src_y dst_pitch bw bh bs cols ⟨some d, calls⟩ i
        = .ok st ↔
      bw ≠ 0 ∧ bh ≠ 0 ∧
      RowDefined src_pitch src_x src_y dst_pitch bw bh bs cols i ∧
      st = ⟨some (copy_row s src_pitch dst_pitch (src_y.tdiv bh) (src_x.tdiv bw * bs)
              (cols * bs) d i),
            calls ++ [row_call src_pitch dst_pitch (src_y.tdiv bh) (src_x.tdiv bw * bs)
              (cols * bs) i]⟩ := by
  unfold blockblit2d_row RowDefined
  simp only [bind_eq_ok, imul_eq_ok, idiv_eq_ok, iadd_eq_ok, memcpy_eq_ok, pure, Except.pure]
  constructor
  · rintro ⟨_, ⟨h1, rfl⟩, _, ⟨h2, h3, rfl⟩, _, ⟨h4, rfl⟩, _, ⟨h5, rfl⟩, _, ⟨h6, h7, rfl⟩, _,
      ⟨h8, rfl⟩, _, ⟨h9, rfl⟩, _, ⟨h10, rfl⟩, h11⟩
    refine ⟨h6, h2, ⟨h1, h3, h4, h5, h7, h8, h9, h10⟩, ?_⟩
    injection h11 with h11
    rw [← h11]
    rfl
  · rintro ⟨h6, h2, ⟨h1, h3, h4, h5, h7, h8, h9, h10⟩, rfl⟩
    exact ⟨_, ⟨h1, rfl⟩, _, ⟨h2, h3, rfl⟩, _, ⟨h4, rfl⟩, _, ⟨h5, rfl⟩, _, ⟨h6, h7, rfl⟩, _,
      ⟨h8, rfl⟩, _, ⟨h9, rfl⟩, _, ⟨h10, rfl⟩, rfl⟩

theorem foldlM_rows_eq_ok (s : Mem) (src_pitch src_x src_y dst_pitch bw bh bs cols : Int)
    (l : List Nat) (d : Mem) (calls : List Memcpy) (st : Blit) :
    l.foldlM (fun st (row : Nat) =>
        blockblit2d_row (some s) src_pitch src_x src_y dst_pitch bw bh bs cols st (row : Int))
        (⟨some d, calls⟩ : Blit) = .ok st ↔
      (l ≠ [] → bw ≠ 0 ∧ bh ≠ 0) ∧
      (∀ i ∈ l, RowDefined src_pitch src_x src_y dst_pitch bw bh bs cols (i : Nat)) ∧
      st = ⟨some (l.foldl (copy_row s src_pitch dst_pitch (src_y.tdiv bh)
              (src_x.tdiv bw * bs) (cols * bs)) d),
            calls ++ l.map (row_call src_pitch dst_pitch (src_y.tdiv bh)
              (src_x.tdiv bw * bs) (cols * bs))⟩ := by
  induction l generalizing d calls with
  | nil =>
    simp only [List.foldlM_nil, pure, Except.pure, List.foldl_nil, List.map_nil,
      List.append_nil, List.not_mem_nil, ne_eq, not_true_eq_false, false_implies,
      implies_true, true_and]
    constructor
    · intro h; injection h with h; exact h.symm
    · intro h; rw [h]
  | cons i l ih =>
    rw [List.foldlM_cons, bind_eq_ok]
    constructor
    · rintro ⟨st1, h1, h2⟩
      rw [blockblit2d_row_eq_ok] at h1
      obtain ⟨hbw, hbh, hrow, rfl⟩ := h1
      rw [ih] at h2
      obtain ⟨_, hall, rfl⟩ := h2
      refine ⟨fun _ => ⟨hbw, hbh⟩, ?_, ?_⟩
      · intro j hj
        rcases List.mem_cons.mp hj with rfl | hj
        · exact hrow
        · exact hall j hj
      · simp [List.foldl_cons, List.map_cons, List.append_assoc]
    · rintro ⟨hne, hall, rfl⟩
      obtain ⟨hbw, hbh⟩ := hne (List.cons_ne_nil _ _)
      refine ⟨_, (blockblit2d_row_eq_ok _ _ _ _ _ _ _ _ _ _ _ _ _).mpr
        ⟨hbw, hbh, hall i (List.mem_cons_self _ _), rfl⟩, ?_⟩
      rw [ih]
      refine ⟨fun _ => ⟨hbw, hbh⟩, fun j hj => hall j (List.mem_cons_of_mem _ hj), ?_⟩
      simp [List.foldl_cons, List.map_cons, List.append_assoc]

theorem foldl_copy_row_read (s : Mem) (sp dp q so n : Int) (d : Mem) (hn : n ≤ dp)
    (k row : Nat) (j : Int) (hrow : row < k) (hj0 : 0 ≤ j) (hjn : j < n) :
    ((List.range k).foldl (copy_row s sp dp q so n) d) ((row : Int) * dp + j)
      = s ((q + (row : Int)) * sp + so + j) := by
  induction k with
  | zero => omega
  | succ k ih =>
    rw [List.range_succ, List.foldl_append, List.foldl_cons, List.foldl_nil]
    by_cases hk : row = k
    · subst hk
      unfold copy_row
      have hc : (row : Int) * dp ≤ (row : Int) * dp + j ∧
          (row : Int) * dp + j < (row : Int) * dp + n := ⟨by omega, by omega⟩
      rw [if_pos hc]
      congr 1
      ring
    · have hlt : row < k := by omega
      have h1 : ((row : Int) + 1) * dp ≤ (k : Int) * dp := by
        apply mul_le_mul_of_nonneg_right
        · exact_mod_cast hlt
        · omega
      have hc : ¬ ((k : Int) * dp ≤ (row : Int) * dp + j ∧
          (row : Int) * dp + j < (k : Int) * dp + n) := by
        intro hc
        have h2 : ((row : Int) + 1) * dp = (row : Int) * dp + dp := by ring
        omega
      show copy_row s sp dp q so n _ k _ = _
      unfold copy_row
      rw [if_neg hc]
      exact ih hlt

theorem blockblit2d_eq_ok (s d : Mem) (src_pitch src_x src_y dst_pitch bw bh bs width
    height : Int) (r : BlitResult) :
    blockblit2d (some s) src_pitch src_x src_y (some d) dst_pitch bw bh bs width height
        = .ok r ↔
      BlitDefined src_pitch src_x src_y dst_pitch bw bh bs width height ∧
      r = ⟨some ((List.range (height.tdiv bh).toNat).foldl
              (copy_row s src_pitch dst_pitch (src_y.tdiv bh) (src_x.tdiv bw * bs)
                (width.tdiv bw * bs)) d),
            (List.range (height.tdiv bh).toNat).map
              (row_call src_pitch dst_pitch (src_y.tdiv bh) (src_x.tdiv bw * bs)
                (width.tdiv bw * bs)),
            height.tdiv bh * width.tdiv bw⟩ := by
  unfold blockblit2d BlitDefined
  simp only [bind_eq_ok, idiv_eq_ok, imul_eq_ok, foldlM_rows_eq_ok, pure, Except.pure]
  constructor
  · rintro ⟨_, ⟨h1, h2, rfl⟩, _, ⟨h3, h4, rfl⟩, _, ⟨_, h6, rfl⟩, _, ⟨h7, rfl⟩, h8⟩
    refine ⟨⟨h1, h3, h2, h4, h7, ?_⟩, ?_⟩
    · intro row h0 hlt
      have := h6 row.toNat (List.mem_range.mpr (by omega))
      rwa [Int.toNat_of_nonneg h0] at this
    · injection h8 with h8
      rw [← h8]
      simp
  · rintro ⟨⟨h1, h3, h2, h4, h7, h6⟩, rfl⟩
    refine ⟨_, ⟨h1, h2, rfl⟩, _, ⟨h3, h4, rfl⟩, _, ⟨fun _ => ⟨h1, h3⟩, ?_, rfl⟩, _, ⟨h7, rfl⟩, ?_⟩
    · intro i hi
      have hi := List.mem_range.mp hi
      exact h6 i (by omega) (by omega)
    · simp

theorem blockblit2d_read (s d : Mem) (src_pitch src_x src_y dst_pitch bw bh bs width
    height : Int) (hp : width.tdiv bw * bs ≤ dst_pitch) (r : BlitResult)
    (h : blockblit2d (some s) src_pitch src_x src_y (some d) dst_pitch bw bh bs width height
        = .ok r) :
    r.ret = height.tdiv bh * width.tdiv bw ∧
    ∃ out, r.dst = some out ∧
      ∀ row j : Int, 0 ≤ row → row < height.tdiv bh → 0 ≤ j → j < width.tdiv bw * bs →
        out (row * dst_pitch + j)
          = s ((src_y.tdiv bh + row) * src_pitch + src_x.tdiv bw * bs + j) := by
  rw [blockblit2d_eq_ok] at h
  obtain ⟨_, rfl⟩ := h
  refine ⟨rfl, _, rfl, ?_⟩
  intro row j h0 hlt hj0 hjn
  have hrow : row.toNat < (height.tdiv bh).toNat := by omega
  have := foldl_copy_row_read s src_pitch dst_pitch (src_y.tdiv bh) (src_x.tdiv bw * bs)
    (width.tdiv bw * bs) d hp (height.tdiv bh).toNat row.toNat j hrow hj0 hjn
  rwa [Int.toNat_of_nonneg h0] at this

theorem memcpy_null (dst src : Ptr) (dst_off src_off n : Int) (m : Mem)
    (h : dst = none ∨ src = none) : memcpy dst dst_off src src_off n ≠ .ok m := by
  unfold memcpy
  rcases h with rfl | rfl
  · simp
  · cases dst <;> simp

theorem blockblit2d_row_null (src : Ptr) (src_pitch src_x src_y dst_pitch bw bh bs cols : Int)
    (st st2 : Blit) (i : Int) (h : st.dst = none ∨ src = none) :
    blockblit2d_row src src_pitch src_x src_y dst_pitch bw bh bs cols st i ≠ .ok st2 := by
  unfold blockblit2d_row
  simp only [bind_eq_ok, ne_eq, not_exists, not_and]
  intro _ _ _ _ _ _ _ _ _ _ _ _ _ _ m hm
  exact absurd hm (memcpy_null _ _ _ _ _ _ h)

theorem sum_len_row_calls (sp dp q so n : Int) (k : Nat) :
    (((List.range k).map (row_call sp dp q so n)).map (fun c => c.len)).sum = (k : Int) * n := by
  induction k with
  | zero => simp
  | succ k ih =>
    rw [List.range_succ, List.map_append, List.map_append, List.sum_append, ih]
    simp [row_call]
    ring

theorem blockblit2d_calls (src dst : Ptr) (src_pitch src_x src_y dst_pitch bw bh bs width
    height : Int) (r : BlitResult)
    (h : blockblit2d src src_pitch src_x src_y dst dst_pitch bw bh bs width height = .ok r) :
    r.calls = (List.range (height.tdiv bh).toNat).map
      (row_call src_pitch dst_pitch (src_y.tdiv bh) (src_x.tdiv bw * bs)
        (width.tdiv bw * bs)) := by
  cases hs : src with
  | some s =>
    cases hd : dst with
    | some d =>
      rw [hs, hd, blockblit2d_eq_ok] at h
      rw [h.2]
    | none =>
      rw [hs, hd] at h
      unfold blockblit2d at h
      simp only [bind_eq_ok, idiv_eq_ok, imul_eq_ok, pure, Except.pure] at h
      obtain ⟨_, ⟨_, _, rfl⟩, _, ⟨_, _, rfl⟩, st, hfold, _, _, hr⟩ := h
      cases hl : List.range (height.tdiv bh).toNat with
      | nil =>
        rw [hl] at hfold
        simp only [List.foldlM_nil, pure, Except.pure] at hfold
        injection hfold with hfold
        injection hr with hr
        rw [← hr, ← hfold]
        rfl
      | cons i l =>
        rw [hl, List.foldlM_cons, bind_eq_ok] at hfold
        obtain ⟨st1, h1, _⟩ := hfold
        exact absurd h1 (blockblit2d_row_null _ _ _ _ _ _ _ _ _ _ _ _ (Or.inl rfl))
  | none =>
    rw [hs] at h
    unfold blockblit2d at h
    simp only [bind_eq_ok, idiv_eq_ok, imul_eq_ok, pure, Except.pure] at h
    obtain ⟨_, ⟨_, _, rfl⟩, _, ⟨_, _, rfl⟩, st, hfold, _, _, hr⟩ := h
    cases hl : List.range (height.tdiv bh).toNat with
    | nil =>
      rw [hl] at hfold
      simp only [List.foldlM_nil, pure, Except.pure] at hfold
      injection hfold with hfold
      injection hr with hr
      rw [← hr, ← hfold]
      rfl
    | cons i l =>
      rw [hl, List.foldlM_cons, bind_eq_ok] at hfold
      obtain ⟨st1, h1, _⟩ := hfold
      exact absurd h1 (blockblit2d_row_null _ _ _ _ _ _ _ _ _ _ _ _ (Or.inr rfl))

/-! ## Lemmas on the staging slot -/

theorem payload_bytes_eq_ok (width bw height bh bs v : Int) :
    payload_bytes width bw height bh bs = .ok v ↔
      bw ≠ 0 ∧ InInt (width.tdiv bw) ∧ InInt (width.tdiv bw * height) ∧ bh ≠ 0 ∧
      InInt ((width.tdiv bw * height).tdiv bh) ∧
      InInt ((width.tdiv bw * height).tdiv bh * bs) ∧
      InInt (((width.tdiv bw * height).tdiv bh * bs).tdiv 8) ∧
      v = ((width.tdiv bw * height).tdiv bh * bs).tdiv 8 := by
  unfold payload_bytes
  simp only [bind_eq_ok, idiv_eq_ok, imul_eq_ok]
  constructor
  · rintro ⟨_, ⟨h1, h2, rfl⟩, _, ⟨h3, rfl⟩, _, ⟨h4, h5, rfl⟩, _, ⟨h6, rfl⟩, _, h7, rfl⟩
    exact ⟨h1, h2, h3, h4, h5, h6, h7, rfl⟩
  · rintro ⟨h1, h2, h3, h4, h5, h6, h7, rfl⟩
    exact ⟨_, ⟨h1, h2, rfl⟩, _, ⟨h3, rfl⟩, _, ⟨h4, h5, rfl⟩, _, ⟨h6, rfl⟩, by decide, h7, rfl⟩

theorem xfer_dst_pitch_eq_ok (x : Xfer) (p : Int) :
    xfer_dst_pitch x = .ok p ↔
      x.block_width ≠ 0 ∧ InInt (x.width.tdiv x.block_width) ∧ InInt (x.block_size.tdiv 8) ∧
      InInt (x.width.tdiv x.block_width * x.block_size.tdiv 8) ∧
      p = x.width.tdiv x.block_width * x.block_size.tdiv 8 := by
  unfold xfer_dst_pitch
  simp only [bind_eq_ok, idiv_eq_ok, imul_eq_ok]
  constructor
  · rintro ⟨_, ⟨h1, h2, rfl⟩, _, ⟨_, h3, rfl⟩, h4, rfl⟩
    exact ⟨h1, h2, h3, h4, rfl⟩
  · rintro ⟨h1, h2, h3, h4, rfl⟩
    exact ⟨_, ⟨h1, h2, rfl⟩, _, ⟨by decide, h3, rfl⟩, h4, rfl⟩

theorem xfer_blit_eq_ok (x : Xfer) (src dst : Mem) (r : BlitResult) :
    xfer_blit x src dst = .ok r ↔
      (x.block_width ≠ 0 ∧ InInt (x.width.tdiv x.block_width) ∧
        InInt (x.block_size.tdiv 8) ∧
        InInt (x.width.tdiv x.block_width * x.block_size.tdiv 8)) ∧
      blockblit2d (if x.src_ptr = 0 then none else some src) x.src_pitch x.src_x x.src_y
        (if x.pbo_buffer = 0 then none else some dst)
        (x.width.tdiv x.block_width * x.block_size.tdiv 8)
        x.block_width x.block_height (x.block_size.tdiv 8) x.width x.height = .ok r := by
  unfold xfer_blit
  simp only [bind_eq_ok, xfer_dst_pitch_eq_ok, idiv_eq_ok]
  constructor
  · rintro ⟨_, ⟨h1, h2, h3, h4, rfl⟩, _, ⟨_, _, rfl⟩, h5⟩
    exact ⟨⟨h1, h2, h3, h4⟩, h5⟩
  · rintro ⟨⟨h1, h2, h3, h4⟩, h5⟩
    exact ⟨_, ⟨h1, h2, h3, h4, rfl⟩, _, ⟨by decide, h3, rfl⟩, h5⟩

theorem xfer_start_eq_ok (xfer : Xfer) (dst_tex tex_format src_ptr : Nat)
    (src_pitch src_x src_y dst_x dst_y bw bh bs width height k : Int) :
    (xfer_start xfer dst_tex tex_format src_ptr src_pitch src_x src_y dst_x dst_y bw bh bs
        width height).2 = .ok k ↔
      k = 0 ∧ xfer.syncpt = 0 ∧
        ∃ v, payload_bytes width bw height bh bs = .ok v ∧ toUInt64 v < xfer.size := by
  unfold xfer_start
  cases hpay : payload_bytes width bw height bh bs with
  | error e => simp
  | ok v =>
    by_cases hsize : toUInt64 v < xfer.size
    · by_cases hsync : xfer.syncpt = 0
      · simp [hsize, hsync, eq_comm]
      · simp [hsize, hsync]
    · simp [hsize]

theorem xfer_start_fields (xfer : Xfer) (dst_tex tex_format src_ptr : Nat)
    (src_pitch src_x src_y dst_x dst_y bw bh bs width height k : Int)
    (h : (xfer_start xfer dst_tex tex_format src_ptr src_pitch src_x src_y dst_x dst_y bw
        bh bs width height).2 = .ok k) :
    (xfer_start xfer dst_tex tex_format src_ptr src_pitch src_x src_y dst_x dst_y bw bh bs
        width height).1 =
      { xfer with
        dst_tex := dst_tex, tex_format := toInt32 tex_format, src_ptr := src_ptr,
        src_pitch := src_pitch, src_x := src_x, src_y := src_y, dst_x := dst_x,
        dst_y := dst_y, block_width := bw, block_height := bh, block_size := bs,
        width := width, height := height } := by
  obtain ⟨_, hsync, v, hpay, hsize⟩ := (xfer_start_eq_ok _ _ _ _ _ _ _ _ _ _ _ _ _ _ _).mp h
  unfold xfer_start
  simp [hpay, hsize, hsync]

/-! ## Block copier: reference copy and round trip -/

/-- C1: `blockblit2d` equals the reference row-by-row copy.  For positive block
dimensions, a region whose width and height are multiples of them, a non-negative
block-aligned source origin and a destination pitch of at least
`(width/block_width)*block_size`, the call returns exactly when its `int` arithmetic
is defined (`BlitDefined`), and whenever it returns, the destination byte at offset
`row*dst_pitch + j` equals the source byte at offset
`(src_y/block_height + row)*src_pitch + (src_x/block_width)*block_size + j`, for every
`0 ≤ row < height/block_height` and `0 ≤ j < (width/block_width)*block_size`. -/
theorem blockblit2d_matches_reference (src dst : Mem)
    (src_pitch src_x src_y dst_pitch block_width block_height block_size width height : Int)
    (hbw : 0 < block_width) (hbh : 0 < block_height)
    (hw : block_width ∣ width) (hh : block_height ∣ height)
    (hx : 0 ≤ src_x) (hy : 0 ≤ src_y)
    (hxa : block_width ∣ src_x) (hya : block_height ∣ src_y)
    (hp : width.tdiv block_width * block_size ≤ dst_pitch) :
    ((∃ r, blockblit2d (some src) src_pitch src_x src_y (some dst) dst_pitch
          block_width block_height block_size width height = .ok r) ↔
      BlitDefined src_pitch src_x src_y dst_pitch block_width block_height block_size
        width height) ∧
    ∀ r, blockblit2d (some src) src_pitch src_x src_y (some dst) dst_pitch
          block_width block_height block_size width height = .ok r →
      ∃ out, r.dst = some out ∧
        ∀ row j : Int, 0 ≤ row → row < height.tdiv block_height →
          0 ≤ j → j < width.tdiv block_width * block_size →
          out (row * dst_pitch + j)
            = src ((src_y.tdiv block_height + row) * src_pitch
                + src_x.tdiv block_width * block_size + j) := by
  refine ⟨⟨?_, ?_⟩, ?_⟩
  · rintro ⟨r, hr⟩
    exact ((blockblit2d_eq_ok _ _ _ _ _ _ _ _ _ _ _ _).mp hr).1
  · intro hd
    exact ⟨_, (blockblit2d_eq_ok _ _ _ _ _ _ _ _ _ _ _ _).mpr ⟨hd, rfl⟩⟩
  · intro r hr
    exact (blockblit2d_read src dst src_pitch src_x src_y dst_pitch block_width
      block_height block_size width height hp r hr).2

/-- C7: round trip of `blockblit2d`.  Copying a valid block-aligned region of `bufA`
(pitch `pA`, origin `(src_x, src_y)`) into `bufB` with the tight pitch
`pB = (width/block_width)*block_size`, then copying back from the result (pitch `pB`,
origin `(0,0)`) into `bufA2` with pitch `pA ≥ pB`, returns exactly when the arithmetic of
both calls is defined, and whenever both calls return, they return the same block count and
`bufA2` holds at `r*pA + j` the byte of `bufA` at
`(src_y/block_height + r)*pA + (src_x/block_width)*block_size + j`. -/
theorem blockblit2d_round_trip (bufA bufB bufA2 : Mem)
    (pA src_x src_y block_width block_height block_size width height : Int)
    (hbw : 0 < block_width) (hbh : 0 < block_height)
    (hw : block_width ∣ width) (hh : block_height ∣ height)
    (hx : 0 ≤ src_x) (hy : 0 ≤ src_y)
    (hxa : block_width ∣ src_x) (hya : block_height ∣ src_y)
    (hp : width.tdiv block_width * block_size ≤ pA) :
    ((∃ r1 r2,
        blockblit2d (some bufA) pA src_x src_y (some bufB)
          (width.tdiv block_width * block_size) block_width block_height block_size
          width height = .ok r1 ∧
        blockblit2d r1.dst (width.tdiv block_width * block_size) 0 0 (some bufA2) pA
          block_width block_height block_size width height = .ok r2) ↔
      BlitDefined pA src_x src_y (width.tdiv block_width * block_size) block_width
        block_height block_size width height ∧
      BlitDefined (width.tdiv block_width * block_size) 0 0 pA block_width block_height
        block_size width height) ∧
    ∀ r1 r2,
      blockblit2d (some bufA) pA src_x src_y (some bufB)
        (width.tdiv block_width * block_size) block_width block_height block_size
        width height = .ok r1 →
      blockblit2d r1.dst (width.tdiv block_width * block_size) 0 0 (some bufA2) pA
        block_width block_height block_size width height = .ok r2 →
      r1.ret = r2.ret ∧
      ∃ out, r2.dst = some out ∧
        ∀ r j : Int, 0 ≤ r → r < height.tdiv block_height →
          0 ≤ j → j < width.tdiv block_width * block_size →
          out (r * pA + j)
            = bufA ((src_y.tdiv block_height + r) * pA
                + src_x.tdiv block_width * block_size + j) := by
  refine ⟨⟨?_, ?_⟩, ?_⟩
  · rintro ⟨r1, r2, h1, h2⟩
    have hd1 := ((blockblit2d_eq_ok _ _ _ _ _ _ _ _ _ _ _ _).mp h1)
    obtain ⟨hd1, rfl⟩ := hd1
    exact ⟨hd1, ((blockblit2d_eq_ok _ _ _ _ _ _ _ _ _ _ _ _).mp h2).1⟩
  · rintro ⟨hd1, hd2⟩
    have h1 := (blockblit2d_eq_ok bufA bufB pA src_x src_y
      (width.tdiv block_width * block_size) block_width block_height block_size width
      height _).mpr ⟨hd1, rfl⟩
    have h2 := (blockblit2d_eq_ok
      ((List.range (height.tdiv block_height).toNat).foldl
        (copy_row bufA pA (width.tdiv block_width * block_size) (src_y.tdiv block_height)
          (src_x.tdiv block_width * block_size) (width.tdiv block_width * block_size)) bufB)
      bufA2 (width.tdiv block_width * block_size) 0 0 pA
      block_width block_height block_size width height _).mpr ⟨hd2, rfl⟩
    exact ⟨_, _, h1, h2⟩
  · intro r1 r2 h1 h2
    obtain ⟨hret1, mid, hmid, hread1⟩ := blockblit2d_read bufA bufB pA src_x src_y
      (width.tdiv block_width * block_size) block_width block_height block_size width
      height (le_refl _) r1 h1
    rw [hmid] at h2
    obtain ⟨hret2, out, hout, hread2⟩ := blockblit2d_read mid bufA2
      (width.tdiv block_width * block_size) 0 0 pA block_width block_height block_size
      width height hp r2 h2
    refine ⟨by rw [hret1, hret2], out, hout, ?_⟩
    intro r j h0 hlt hj0 hjn
    rw [hread2 r j h0 hlt hj0 hjn, ← hread1 r j h0 hlt hj0 hjn]
    congr 1
    simp [Int.zero_tdiv]

theorem blockblit2d_matches_reference_witness :
    ((0 : Int) < 8 ∧ (8 : Int) ∣ 16 ∧ (0 : Int) ≤ 8 ∧
      (16 : Int).tdiv 8 * 16 ≤ 32) ∧
    ∃ r out, blockblit2d (some sample_image) 64 8 8 (some zero_buffer) 32 8 8 16 16 16
        = .ok r ∧ r.dst = some out ∧
      out (1 * 32 + 5) = sample_image (((8 : Int).tdiv 8 + 1) * 64 + (8 : Int).tdiv 8 * 16 + 5) := by
  have T := blockblit2d_matches_reference sample_image zero_buffer 64 8 8 32 8 8 16 16 16
    (by decide) (by decide) (by decide) (by decide) (by decide) (by decide) (by decide)
    (by decide) (by decide)
  have hd : BlitDefined 64 8 8 32 8 8 16 16 16 := by
    refine ⟨by decide, by decide, by decide, by decide, by decide, ?_⟩
    intro row h0 h1
    have h2 : (16 : Int).tdiv 8 = 2 := by decide
    have h3 : (8 : Int).tdiv 8 = 1 := by decide
    rw [h2] at h1
    simp only [RowDefined, InInt, INT_MIN, INT_MAX, h2, h3]
    omega
  obtain ⟨r, hr⟩ := T.1.mpr hd
  obtain ⟨out, ho, hread⟩ := T.2 r hr
  exact ⟨⟨by decide, by decide, by decide, by decide⟩, r, out, hr, ho,
    hread 1 5 (by decide) (by decide) (by decide) (by decide)⟩

theorem blockblit2d_round_trip_witness :
    ((0 : Int) < 8 ∧ (8 : Int) ∣ 16 ∧ (0 : Int) ≤ 8 ∧
      (16 : Int).tdiv 8 * 16 ≤ 64) ∧
    ∃ r1 r2 out,
      blockblit2d (some sample_image) 64 8 8 (some zero_buffer)
        ((16 : Int).tdiv 8 * 16) 8 8 16 16 16 = .ok r1 ∧
      blockblit2d r1.dst ((16 : Int).tdiv 8 * 16) 0 0 (some zero_buffer) 64
        8 8 16 16 16 = .ok r2 ∧
      r1.ret = r2.ret ∧ r2.dst = some out ∧
      out (1 * 64 + 5) = sample_image (((8 : Int).tdiv 8 + 1) * 64 + (8 : Int).tdiv 8 * 16 + 5) := by
  have T := blockblit2d_round_trip sample_image zero_buffer zero_buffer 64 8 8 8 8 16 16 16
    (by decide) (by decide) (by decide) (by decide) (by decide) (by decide) (by decide)
    (by decide) (by decide)
  have h2 : (16 : Int).tdiv 8 = 2 := by decide
  have h3 : (8 : Int).tdiv 8 = 1 := by decide
  have h4 : (0 : Int).tdiv 8 = 0 := by decide
  have hd1 : BlitDefined 64 8 8 ((16 : Int).tdiv 8 * 16) 8 8 16 16 16 := by
    refine ⟨by decide, by decide, by decide, by decide, by decide, ?_⟩
    intro row h0 h1
    rw [h2] at h1
    simp only [RowDefined, InInt, INT_MIN, INT_MAX, h2, h3]
    omega
  have hd2 : BlitDefined ((16 : Int).tdiv 8 * 16) 0 0 64 8 8 16 16 16 := by
    refine ⟨by decide, by decide, by decide, by decide, by decide, ?_⟩
    intro row h0 h1
    rw [h2] at h1
    simp only [RowDefined, InInt, INT_MIN, INT_MAX, h2, h4]
    omega
  obtain ⟨r1, r2, hr1, hr2⟩ := T.1.mpr ⟨hd1, hd2⟩
  obtain ⟨hret, out, ho, hread⟩ := T.2 r1 r2 hr1 hr2
  exact ⟨⟨by decide, by decide, by decide, by decide⟩, r1, r2, out, hr1, hr2, hret, ho,
    hread 1 5 (by decide) (by decide) (by decide) (by decide)⟩

/-! ## Staging slot: start and finish -/

/-- C2: `xfer_start` rejects a transfer if and only if the fence of the slot is non-null or
the computed payload size is not strictly less than the capacity of the slot (which
includes the case where the size expression has no value).  The rejection is an assertion
failure whenever the size expression has a value; a slot with a non-null fence is rejected
whatever the other arguments; a rejected call leaves every field of the slot unchanged;
and a call that is not rejected returns `0`. -/
theorem xfer_start_rejects_iff (xfer : Xfer) (dst_tex tex_format src_ptr : Nat)
    (src_pitch src_x src_y dst_x dst_y block_width block_height block_size width
      height : Int) :
    ((∃ e, (xfer_start xfer dst_tex tex_format src_ptr src_pitch src_x src_y dst_x dst_y
          block_width block_height block_size width height).2 = .error e) ↔
      (xfer.syncpt ≠ 0 ∨
        ¬ ∃ v, payload_bytes width block_width height block_height block_size = .ok v ∧
          toUInt64 v < xfer.size)) ∧
    (∀ v, payload_bytes width block_width height block_height block_size = .ok v →
      (xfer.syncpt ≠ 0 ∨ ¬ toUInt64 v < xfer.size) →
      (xfer_start xfer dst_tex tex_format src_ptr src_pitch src_x src_y dst_x dst_y
          block_width block_height block_size width height).2 = .error .assertion) ∧
    (xfer.syncpt ≠ 0 →
      ∃ e, (xfer_start xfer dst_tex tex_format src_ptr src_pitch src_x src_y dst_x dst_y
          block_width block_height block_size width height).2 = .error e) ∧
    ((∃ e, (xfer_start xfer dst_tex tex_format src_ptr src_pitch src_x src_y dst_x dst_y
          block_width block_height block_size width height).2 = .error e) →
      (xfer_start xfer dst_tex tex_format src_ptr src_pitch src_x src_y dst_x dst_y
          block_width block_height block_size width height).1 = xfer) ∧
    ((¬ ∃ e, (xfer_start xfer dst_tex tex_format src_ptr src_pitch src_x src_y dst_x dst_y
          block_width block_height block_size width height).2 = .error e) →
      (xfer_start xfer dst_tex tex_format src_ptr src_pitch src_x src_y dst_x dst_y
          block_width block_height block_size width height).2 = .ok 0) := by
  unfold xfer_start
  cases hpay : payload_bytes width block_width height block_height block_size with
  | error e => simp
  | ok v =>
    by_cases hsize : toUInt64 v < xfer.size
    · by_cases hsync : xfer.syncpt = 0
      · simp [hsize, hsync]
      · simp [hsize, hsync]
    · simp [hsize]

theorem xfer_start_rejects_iff_witness :
    in_flight_xfer.syncpt ≠ 0 ∧
    (xfer_start in_flight_xfer 1 37815 4096 512 0 0 0 0 8 8 128 32 32).2
      = .error .assertion ∧
    (xfer_start in_flight_xfer 1 37815 4096 512 0 0 0 0 8 8 128 32 32).1
      = in_flight_xfer := by
  have T := xfer_start_rejects_iff in_flight_xfer 1 37815 4096 512 0 0 0 0 8 8 128 32 32
  exact ⟨by decide, T.2.1 256 (by decide) (Or.inl (by decide)), T.2.2.2.1 (T.2.2.1 (by decide))⟩

/-- C3: for a slot with a non-null fence, whatever the wait flags, the timeout and the
answers of the driver, `xfer_finish` leaves the fence null if and only if it returns `1`;
when it returns `0` or `-1` the fence is unchanged; no field other than the fence is ever
changed; and the returned status is `1`, `0` or `-1`. -/
theorem xfer_finish_fence (xfer : Xfer) (server_wait client_wait flush : Int)
    (client_timeout_ns : Nat) (cond : WaitResult) (sync_status : SyncStatus)
    (h : xfer.syncpt ≠ 0) :
    (((xfer_finish xfer server_wait client_wait flush client_timeout_ns cond
          sync_status).1.syncpt = 0) ↔
      (xfer_finish xfer server_wait client_wait flush client_timeout_ns cond
          sync_status).2 = 1) ∧
    (((xfer_finish xfer server_wait client_wait flush client_timeout_ns cond
          sync_status).2 = 0 ∨
      (xfer_finish xfer server_wait client_wait flush client_timeout_ns cond
          sync_status).2 = -1) →
      (xfer_finish xfer server_wait client_wait flush client_timeout_ns cond
          sync_status).1 = xfer) ∧
    (xfer_finish xfer server_wait client_wait flush client_timeout_ns cond sync_status).1
      = { xfer with syncpt :=
          (xfer_finish xfer server_wait client_wait flush client_timeout_ns cond
            sync_status).1.syncpt } ∧
    ((xfer_finish xfer server_wait client_wait flush client_timeout_ns cond
          sync_status).2 = 1 ∨
      (xfer_finish xfer server_wait client_wait flush client_timeout_ns cond
          sync_status).2 = 0 ∨
      (xfer_finish xfer server_wait client_wait flush client_timeout_ns cond
          sync_status).2 = -1) := by
  unfold xfer_finish
  by_cases hc : client_wait = 0
  · cases sync_status <;> simp [hc, poll_status, h]
  · cases cond <;> simp [hc, client_wait_status, h]

theorem xfer_finish_fence_witness :
    in_flight_xfer.syncpt ≠ 0 ∧
    (xfer_finish in_flight_xfer 1 0 0 0 .WAIT_FAILED .SIGNALED).2 = 1 ∧
    (xfer_finish in_flight_xfer 1 0 0 0 .WAIT_FAILED .SIGNALED).1.syncpt = 0 := by
  have T := xfer_finish_fence in_flight_xfer 1 0 0 0 .WAIT_FAILED .SIGNALED (by decide)
  have h1 : (xfer_finish in_flight_xfer 1 0 0 0 .WAIT_FAILED .SIGNALED).2 = 1 := by decide
  exact ⟨by decide, h1, T.1.mpr h1⟩

/-- With `client_wait` set, an expired timeout makes `xfer_finish` return `-1` and leave
the slot as it was, whatever the other arguments. -/
theorem xfer_finish_timeout_expired (xfer : Xfer) (server_wait client_wait flush : Int)
    (client_timeout_ns : Nat) (sync_status : SyncStatus) (hc : client_wait ≠ 0) :
    xfer_finish xfer server_wait client_wait flush client_timeout_ns .TIMEOUT_EXPIRED
      sync_status = (xfer, -1) := by
  simp [xfer_finish, client_wait_status, hc]

/-- C4: on a slot with an unsatisfied fence, `xfer_finish` with `client_wait` set and a
timeout of `0`, the client wait answering that the timeout expired, returns `-1` (and
not `0`); the fence stays non-null. -/
theorem xfer_finish_timeout_returns_failure :
    (xfer_finish in_flight_xfer 0 1 0 0 .TIMEOUT_EXPIRED .UNSIGNALED).2 = -1 ∧
    (xfer_finish in_flight_xfer 0 1 0 0 .TIMEOUT_EXPIRED .UNSIGNALED).2 ≠ 0 ∧
    (xfer_finish in_flight_xfer 0 1 0 0 .TIMEOUT_EXPIRED .UNSIGNALED).1.syncpt ≠ 0 := by
  decide

/-! ## Payload size -/

theorem toUInt64_of_nonneg (v : Int) (h0 : 0 ≤ v) (h1 : InInt v) : (toUInt64 v : Int) = v := by
  unfold toUInt64
  unfold InInt INT_MAX at h1
  rw [Int.toNat_of_nonneg (Int.emod_nonneg _ (by decide))]
  exact Int.emod_eq_of_lt h0 (by omega)

/-- C8: payload-size consistency.  For a non-negative width and height that are exact
multiples of positive block dimensions and a block size in bits that is a multiple of 8,
without 32-bit overflow, the C expression
`width/block_width * height/block_height * block_size/8` of `xfer_start` and of
`xfer_upload` has the value `(width/block_width) * (height/block_height) * (block_size/8)`:
it is the size that `xfer_start` compares with the capacity and the byte count that
`xfer_upload` passes to the upload (both after conversion to `uint64_t`, which keeps a
non-negative value).  It equals the number of block-rows times the destination pitch
`(width/block_width)*(block_size/8)` of `xfer_blit`, which is the total length of the
`memcpy` calls of every `xfer_blit` that returns. -/
theorem payload_size_consistent (x : Xfer)
    (hw : 0 ≤ x.width) (hh : 0 ≤ x.height)
    (hbw : 0 < x.block_width) (hbh : 0 < x.block_height)
    (hwm : x.block_width ∣ x.width) (hhm : x.block_height ∣ x.height)
    (h8 : 8 ∣ x.block_size)
    (hiw : InInt x.width) (hib : InInt x.block_size)
    (ho1 : InInt (x.width.tdiv x.block_width * x.height))
    (ho2 : InInt (x.width.tdiv x.block_width * x.height.tdiv x.block_height * x.block_size))
    (ho3 : InInt (x.width.tdiv x.block_width * x.block_size.tdiv 8)) :
    payload_bytes x.width x.block_width x.height x.block_height x.block_size
      = .ok (x.width.tdiv x.block_width * x.height.tdiv x.block_height
          * x.block_size.tdiv 8) ∧
    (∀ (y : Xfer) (dst_tex tex_format src_ptr : Nat) (src_pitch src_x src_y dst_x dst_y : Int),
      (xfer_start y dst_tex tex_format src_ptr src_pitch src_x src_y dst_x dst_y
          x.block_width x.block_height x.block_size x.width x.height).2 = .ok 0 ↔
        (y.syncpt = 0 ∧
          toUInt64 (x.width.tdiv x.block_width * x.height.tdiv x.block_height
            * x.block_size.tdiv 8) < y.size)) ∧
    (∀ fence, ∃ call, (xfer_upload x fence).2 = .ok call ∧
      call.bytes = toUInt64 (x.width.tdiv x.block_width * x.height.tdiv x.block_height
        * x.block_size.tdiv 8)) ∧
    (0 ≤ x.block_size →
      (toUInt64 (x.width.tdiv x.block_width * x.height.tdiv x.block_height
        * x.block_size.tdiv 8) : Int)
        = x.width.tdiv x.block_width * x.height.tdiv x.block_height
          * x.block_size.tdiv 8) ∧
    xfer_dst_pitch x = .ok (x.width.tdiv x.block_width * x.block_size.tdiv 8) ∧
    x.height.tdiv x.block_height * (x.width.tdiv x.block_width * x.block_size.tdiv 8)
      = x.width.tdiv x.block_width * x.height.tdiv x.block_height * x.block_size.tdiv 8 ∧
    (∀ src dst r, xfer_blit x src dst = .ok r →
      (r.calls.map (fun c => c.len)).sum
        = x.width.tdiv x.block_width * x.height.tdiv x.block_height
          * x.block_size.tdiv 8) := by
  obtain ⟨c, hc⟩ := hwm
  obtain ⟨r, hr⟩ := hhm
  obtain ⟨b, hb⟩ := h8
  have hbw0 : x.block_width ≠ 0 := by omega
  have hbh0 : x.block_height ≠ 0 := by omega
  have hcols : x.width.tdiv x.block_width = c := by
    rw [hc]; exact Int.mul_tdiv_cancel_left _ hbw0
  have hrows : x.height.tdiv x.block_height = r := by
    rw [hr]; exact Int.mul_tdiv_cancel_left _ hbh0
  have hb8 : x.block_size.tdiv 8 = b := by
    rw [hb]; exact Int.mul_tdiv_cancel_left _ (by decide)
  have hc0 : 0 ≤ c := by
    by_contra hneg
    have : x.block_width * c < 0 := mul_neg_of_pos_of_neg hbw (by omega)
    omega
  have hr0 : 0 ≤ r := by
    by_contra hneg
    have : x.block_height * r < 0 := mul_neg_of_pos_of_neg hbh (by omega)
    omega
  have hcw : c ≤ x.width := by
    have : 1 * c ≤ x.block_width * c := mul_le_mul_of_nonneg_right (by omega) hc0
    omega
  have hrh : r ≤ x.height := by
    have : 1 * r ≤ x.block_height * r := mul_le_mul_of_nonneg_right (by omega) hr0
    omega
  rw [hcols] at ho1 ho3
  rw [hcols, hrows] at ho2
  rw [hb8] at ho3
  have ht3 : (c * x.height).tdiv x.block_height = c * r := by
    rw [hr, ← mul_assoc, mul_comm c x.block_height, mul_assoc]
    exact Int.mul_tdiv_cancel_left _ hbh0
  have ht5 : (c * r * x.block_size).tdiv 8 = c * r * b := by
    rw [hb, ← mul_assoc, mul_comm (c * r) 8, mul_assoc]
    exact Int.mul_tdiv_cancel_left _ (by decide)
  have hcr0 : 0 ≤ c * r := mul_nonneg hc0 hr0
  have hcr : c * r ≤ c * x.height := mul_le_mul_of_nonneg_left hrh hc0
  have hicr : InInt (c * r) := by
    unfold InInt INT_MIN INT_MAX at *
    omega
  have hic : InInt c := by
    unfold InInt INT_MIN INT_MAX at *
    omega
  have hibb : InInt b := by
    unfold InInt INT_MIN INT_MAX at *
    omega
  have hiP : InInt (c * r * b) := by
    have h8b : c * r * x.block_size = 8 * (c * r * b) := by rw [hb]; ring
    unfold InInt INT_MIN INT_MAX at *
    omega
  have hpay : payload_bytes x.width x.block_width x.height x.block_height x.block_size
      = .ok (c * r * b) := by
    rw [payload_bytes_eq_ok, hcols, ht3, ht5]
    exact ⟨hbw0, hic, ho1, hbh0, hicr, ho2, hiP, rfl⟩
  rw [hcols, hrows, hb8]
  refine ⟨hpay, ?_, ?_, ?_, ?_, by ring, ?_⟩
  · intro y dst_tex tex_format src_ptr src_pitch src_x src_y dst_x dst_y
    rw [xfer_start_eq_ok, hpay]
    simp
  · intro fence
    unfold xfer_upload
    rw [hpay]
    exact ⟨_, rfl, rfl⟩
  · intro hbs
    have hb0 : 0 ≤ b := by omega
    exact toUInt64_of_nonneg _ (mul_nonneg hcr0 hb0) hiP
  · rw [xfer_dst_pitch_eq_ok, hcols, hb8]
    exact ⟨hbw0, hic, hibb, ho3, rfl⟩
  · intro src dst res hres
    rw [xfer_blit_eq_ok] at hres
    have hcalls := blockblit2d_calls _ _ _ _ _ _ _ _ _ _ _ _ hres.2
    rw [hcalls, sum_len_row_calls, hcols, hrows, hb8, Int.toNat_of_nonneg hr0]
    ring

theorem payload_size_consistent_witness :
    ((0 : Int) ≤ 32 ∧ (8 : Int) ∣ 32 ∧ (8 : Int) ∣ 128) ∧
    payload_bytes 32 8 32 8 128 = .ok 256 ∧
    xfer_dst_pitch described_xfer = .ok 64 ∧
    (4 : Int) * 64 = 256 := by
  have T := payload_size_consistent described_xfer (by decide) (by decide) (by decide)
    (by decide) (by decide) (by decide) (by decide) (by decide) (by decide) (by decide)
    (by decide) (by decide)
  exact ⟨by decide, T.1, T.2.2.2.2.1, by decide⟩

/-- The bytes written by a blit of `rows` block-rows of `cols` blocks of `b` bytes never
exceed the size computed by the left-to-right expression of `xfer_start`. -/
theorem blit_bytes_le_payload (width bw height bh bs : Int) (hw : 0 ≤ width)
    (hh : 0 ≤ height) (hbs : 0 ≤ bs) (hbw : 0 < bw) (hbh : 0 < bh) :
    height.tdiv bh * (width.tdiv bw * bs.tdiv 8)
      ≤ ((width.tdiv bw * height).tdiv bh * bs).tdiv 8 := by
  have hc0 : 0 ≤ width / bw := Int.ediv_nonneg hw (by omega)
  have hr0 : 0 ≤ height / bh := Int.ediv_nonneg hh (by omega)
  have hb0 : 0 ≤ bs / 8 := Int.ediv_nonneg hbs (by decide)
  have hch : 0 ≤ width / bw * height := mul_nonneg hc0 hh
  have hx0 : 0 ≤ (width / bw * height) / bh := Int.ediv_nonneg hch (by omega)
  rw [Int.tdiv_eq_ediv hw (by omega), Int.tdiv_eq_ediv hh (by omega),
    Int.tdiv_eq_ediv hbs (by decide), Int.tdiv_eq_ediv hch (by omega),
    Int.tdiv_eq_ediv (mul_nonneg hx0 hbs) (by decide)]
  have h1 : width / bw * (height / bh) ≤ (width / bw * height) / bh := by
    rw [Int.le_ediv_iff_mul_le hbh, mul_assoc]
    exact mul_le_mul_of_nonneg_left (Int.ediv_mul_le _ (by omega)) hc0
  have h2 : (width / bw * height) / bh * (bs / 8) ≤ ((width / bw * height) / bh * bs) / 8 := by
    rw [Int.le_ediv_iff_mul_le (by decide), mul_assoc]
    exact mul_le_mul_of_nonneg_left (Int.ediv_mul_le _ (by decide)) hx0
  calc height / bh * (width / bw * (bs / 8))
      = width / bw * (height / bh) * (bs / 8) := by ring
    _ ≤ (width / bw * height) / bh * (bs / 8) := mul_le_mul_of_nonneg_right h1 hb0
    _ ≤ ((width / bw * height) / bh * bs) / 8 := h2

/-- Every offset `row * p + j` of a blit with pitch `p = cols * b` lies below
`rows * p`. -/
theorem blit_offset_lt (rows cols b row j : Int) (hc : 0 ≤ cols * b) (h0 : 0 ≤ row)
    (hlt : row < rows) (hj0 : 0 ≤ j) (hjn : j < cols * b) :
    0 ≤ row * (cols * b) + j ∧ row * (cols * b) + j < rows * (cols * b) := by
  have h1 : 0 ≤ row * (cols * b) := mul_nonneg h0 hc
  have h2 : (row + 1) * (cols * b) ≤ rows * (cols * b) :=
    mul_le_mul_of_nonneg_right (by omega) hc
  have h3 : (row + 1) * (cols * b) = row * (cols * b) + cols * b := by ring
  constructor <;> omega

/-! ## Blit stays inside the buffer of the slot -/

/-- C10: the blit stays inside the buffer of the slot.  For non-negative width, height and
block size and positive block dimensions, block-aligned or not, if `xfer_start` accepts the
transfer then every offset `row*dst_pitch + j`, with `0 ≤ row < height/block_height` and
`0 ≤ j < (width/block_width)*(block_size/8)`, is strictly less than the capacity of the
slot; `dst_pitch` is the pitch that `xfer_blit` computes on the slot, and every byte that
a `memcpy` of the following `xfer_blit` writes lies below the capacity. -/
theorem xfer_blit_within_capacity (xfer : Xfer) (dst_tex tex_format src_ptr : Nat)
    (src_pitch src_x src_y dst_x dst_y block_width block_height block_size width
      height : Int)
    (hw : 0 ≤ width) (hh : 0 ≤ height) (hbs : 0 ≤ block_size)
    (hbw : 0 < block_width) (hbh : 0 < block_height)
    (hacc : (xfer_start xfer dst_tex tex_format src_ptr src_pitch src_x src_y dst_x dst_y
        block_width block_height block_size width height).2 = .ok 0) :
    (∀ row j : Int, 0 ≤ row → row < height.tdiv block_height →
      0 ≤ j → j < width.tdiv block_width * block_size.tdiv 8 →
      0 ≤ row * (width.tdiv block_width * block_size.tdiv 8) + j ∧
      row * (width.tdiv block_width * block_size.tdiv 8) + j < (xfer.size : Int)) ∧
    (∀ p, xfer_dst_pitch (xfer_start xfer dst_tex tex_format src_ptr src_pitch src_x src_y
        dst_x dst_y block_width block_height block_size width height).1 = .ok p →
      p = width.tdiv block_width * block_size.tdiv 8) ∧
    (∀ src dst r,
      xfer_blit (xfer_start xfer dst_tex tex_format src_ptr src_pitch src_x src_y dst_x
        dst_y block_width block_height block_size width height).1 src dst = .ok r →
      ∀ c ∈ r.calls, ∀ j : Int, 0 ≤ j → j < c.len →
        0 ≤ c.dst_off + j ∧
        c.dst_off + j < ((xfer_start xfer dst_tex tex_format src_ptr src_pitch src_x src_y
          dst_x dst_y block_width block_height block_size width height).1.size : Int)) := by
  have hfields := xfer_start_fields _ _ _ _ _ _ _ _ _ _ _ _ _ _ _ hacc
  obtain ⟨_, hsync, v, hpay, hsize⟩ := (xfer_start_eq_ok _ _ _ _ _ _ _ _ _ _ _ _ _ _ _).mp hacc
  rw [payload_bytes_eq_ok] at hpay
  obtain ⟨_, _, _, _, _, _, hiv, rfl⟩ := hpay
  have hle := blit_bytes_le_payload width block_width height block_height block_size hw hh
    hbs hbw hbh
  have hc0 : 0 ≤ width.tdiv block_width := by
    rw [Int.tdiv_eq_ediv hw (by omega)]; exact Int.ediv_nonneg hw (by omega)
  have hb0 : 0 ≤ block_size.tdiv 8 := by
    rw [Int.tdiv_eq_ediv hbs (by decide)]; exact Int.ediv_nonneg hbs (by decide)
  have hr0 : 0 ≤ height.tdiv block_height := by
    rw [Int.tdiv_eq_ediv hh (by omega)]; exact Int.ediv_nonneg hh (by omega)
  have hcb : 0 ≤ width.tdiv block_width * block_size.tdiv 8 := mul_nonneg hc0 hb0
  have hv0 : 0 ≤ ((width.tdiv block_width * height).tdiv block_height * block_size).tdiv 8 :=
    le_trans (mul_nonneg hr0 hcb) hle
  have hsz : ((width.tdiv block_width * height).tdiv block_height * block_size).tdiv 8
      < (xfer.size : Int) := by
    rw [← toUInt64_of_nonneg _ hv0 hiv]
    exact_mod_cast hsize
  have key : ∀ row j : Int, 0 ≤ row → row < height.tdiv block_height →
      0 ≤ j → j < width.tdiv block_width * block_size.tdiv 8 →
      0 ≤ row * (width.tdiv block_width * block_size.tdiv 8) + j ∧
      row * (width.tdiv block_width * block_size.tdiv 8) + j < (xfer.size : Int) := by
    intro row j h0 hlt hj0 hjn
    have := blit_offset_lt (height.tdiv block_height) (width.tdiv block_width)
      (block_size.tdiv 8) row j hcb h0 hlt hj0 hjn
    constructor <;> omega
  refine ⟨key, ?_, ?_⟩
  · intro p hp
    rw [xfer_dst_pitch_eq_ok, hfields] at hp
    exact hp.2.2.2.2
  · intro src dst r hr
    rw [xfer_blit_eq_ok] at hr
    have hcalls := blockblit2d_calls _ _ _ _ _ _ _ _ _ _ _ _ hr.2
    rw [hfields] at hcalls ⊢
    simp only at hcalls ⊢
    intro c hc j hj0 hjn
    rw [hcalls, List.mem_map] at hc
    obtain ⟨i, hi, rfl⟩ := hc
    have hi := List.mem_range.mp hi
    simp only [row_call] at hjn ⊢
    exact key i j (by omega) (by omega) hj0 hjn

theorem xfer_blit_within_capacity_witness :
    ((0 : Int) ≤ 32 ∧ (0 : Int) ≤ 128 ∧ (0 : Int) < 8 ∧
      (xfer_start fresh_xfer 1 37815 4096 512 128 64 0 0 8 8 128 32 32).2 = .ok 0) ∧
    (0 ≤ 3 * ((32 : Int).tdiv 8 * (128 : Int).tdiv 8) + 63 ∧
      3 * ((32 : Int).tdiv 8 * (128 : Int).tdiv 8) + 63 < (fresh_xfer.size : Int)) := by
  have T := xfer_blit_within_capacity fresh_xfer 1 37815 4096 512 128 64 0 0 8 8 128 32 32
    (by decide) (by decide) (by decide) (by decide) (by decide) (by decide)
  exact ⟨⟨by decide, by decide, by decide, by decide⟩,
    T.1 3 63 (by decide) (by decide) (by decide) (by decide)⟩

/-! ## Order of the slot operations -/

theorem xfer_start_syncpt (xfer : Xfer) (dst_tex tex_format src_ptr : Nat)
    (src_pitch src_x src_y dst_x dst_y bw bh bs width height : Int) :
    (xfer_start xfer dst_tex tex_format src_ptr src_pitch src_x src_y dst_x dst_y bw bh bs
        width height).1.syncpt = xfer.syncpt := by
  unfold xfer_start
  cases payload_bytes width bw height bh bs with
  | error e => rfl
  | ok v =>
    by_cases hsize : toUInt64 v < xfer.size
    · by_cases hsync : xfer.syncpt = 0
      · simp [hsize, hsync]
      · simp [hsize, hsync]
    · simp [hsize]

theorem xfer_finish_syncpt (xfer : Xfer) (server_wait client_wait flush : Int)
    (client_timeout_ns : Nat) (cond : WaitResult) (sync_status : SyncStatus) :
    (xfer_finish xfer server_wait client_wait flush client_timeout_ns cond
        sync_status).1.syncpt = 0 ∨
    (xfer_finish xfer server_wait client_wait flush client_timeout_ns cond
        sync_status).1.syncpt = xfer.syncpt := by
  unfold xfer_finish
  simp only
  split_ifs <;> simp

theorem step_upload (s s2 : Slot) (fence : Nat) (h : step s (.upload fence) = .ok s2) :
    s2.xfer.syncpt = fence := by
  unfold step xfer_upload at h
  cases hp : payload_bytes s.xfer.width s.xfer.block_width s.xfer.height s.xfer.block_height
      s.xfer.block_size with
  | error e => rw [hp] at h; simp at h
  | ok v =>
    rw [hp] at h
    simp only at h
    injection h with h
    rw [← h]

theorem step_start (s s2 : Slot) (op : Op) (hop : op.isStart = true)
    (h : step s op = .ok s2) : s.xfer.syncpt = 0 ∧ s2.xfer.syncpt = 0 := by
  cases op with
  | start dst_tex tex_format src_ptr src_pitch src_x src_y dst_x dst_y bw bh bs width height =>
    unfold step at h
    simp only at h
    have hsync := xfer_start_syncpt s.xfer dst_tex tex_format src_ptr src_pitch src_x src_y
      dst_x dst_y bw bh bs width height
    have hok := xfer_start_eq_ok s.xfer dst_tex tex_format src_ptr src_pitch src_x src_y
      dst_x dst_y bw bh bs width height
    generalize xfer_start s.xfer dst_tex tex_format src_ptr src_pitch src_x src_y dst_x dst_y
      bw bh bs width height = res at h hsync hok
    obtain ⟨x, out⟩ := res
    cases out with
    | error e => simp at h
    | ok k =>
      simp only at h
      injection h with h
      have h0 := ((hok k).mp rfl).2.1
      rw [← h]
      exact ⟨h0, by simpa [h0] using hsync⟩
  | blit src => simp [Op.isStart] at hop
  | upload fence => simp [Op.isStart] at hop
  | finish a b c d e f => simp [Op.isStart] at hop

theorem step_fence (s s2 : Slot) (op : Op) (h : step s op = .ok s2)
    (h0 : s.xfer.syncpt = 0) (h1 : s2.xfer.syncpt ≠ 0) : op.isUpload = true := by
  cases op with
  | start dst_tex tex_format src_ptr src_pitch src_x src_y dst_x dst_y bw bh bs width height =>
    exact absurd (step_start s s2 (.start dst_tex tex_format src_ptr src_pitch src_x src_y
      dst_x dst_y bw bh bs width height) rfl h).2 h1
  | blit src =>
    unfold step at h
    simp only at h
    cases hb : xfer_blit s.xfer src s.buffer with
    | error e => rw [hb] at h; simp at h
    | ok r =>
      rw [hb] at h
      simp only at h
      injection h with h
      rw [← h] at h1
      exact absurd h0 h1
  | upload fence => rfl
  | finish a b c d e f =>
    unfold step at h
    simp only at h
    injection h with h
    rw [← h] at h1
    rcases xfer_finish_syncpt s.xfer a b c d e f with hz | hz
    · exact absurd hz h1
    · exact absurd (hz.trans h0) h1

theorem run_fence (ops : List Op) (s s2 : Slot) (h : run s ops = .ok s2)
    (h0 : s.xfer.syncpt = 0) (h1 : s2.xfer.syncpt ≠ 0) : ∃ op ∈ ops, op.isUpload = true := by
  induction ops generalizing s with
  | nil =>
    unfold run at h
    simp only [List.foldlM_nil, pure, Except.pure] at h
    injection h with h
    rw [← h] at h1
    exact absurd h0 h1
  | cons op ops ih =>
    unfold run at h
    rw [List.foldlM_cons, bind_eq_ok] at h
    obtain ⟨s1, hstep, hrest⟩ := h
    by_cases hs1 : s1.xfer.syncpt = 0
    · obtain ⟨op2, hmem, hup⟩ := ih s1 hrest hs1
      exact ⟨op2, List.mem_cons_of_mem _ hmem, hup⟩
    · exact ⟨op, List.mem_cons_self _ _, step_fence s s1 op hstep h0 hs1⟩

/-- C6, as the code has it: in a sequence of slot operations, none of them rejected, that
starts from a slot whose fence is null, the fence is non-null at the end only if the
sequence contains an `xfer_upload`; a single operation turns a null fence into a non-null
one only if it is an `xfer_upload`; an `xfer_start` is accepted only on a null fence and
leaves it null; and an `xfer_upload` that is not rejected stores the sync object of the
driver whatever the state of the slot before it. -/
theorem fence_set_only_by_upload (ops : List Op) (s s2 : Slot)
    (h0 : s.xfer.syncpt = 0) (h : run s ops = .ok s2) :
    (s2.xfer.syncpt ≠ 0 → ∃ op ∈ ops, op.isUpload = true) ∧
    (∀ (a b : Slot) (op : Op), step a op = .ok b →
      (a.xfer.syncpt = 0 → b.xfer.syncpt ≠ 0 → op.isUpload = true) ∧
      (op.isStart = true → a.xfer.syncpt = 0 ∧ b.xfer.syncpt = 0) ∧
      (∀ fence, op = .upload fence → b.xfer.syncpt = fence)) := by
  refine ⟨fun h1 => run_fence ops s s2 h h0 h1, ?_⟩
  intro a b op hstep
  refine ⟨step_fence a b op hstep, fun hop => step_start a b op hop hstep, ?_⟩
  intro fence hop
  subst hop
  exact step_upload a b fence hstep

theorem fence_set_only_by_upload_witness :
    fresh_slot.xfer.syncpt = 0 ∧
    (run fresh_slot [sample_start, .upload 7]).map (fun s => s.xfer.syncpt) = .ok 7 ∧
    ∃ op ∈ [sample_start, Op.upload 7], op.isUpload = true := by
  have hrun : run fresh_slot [sample_start, .upload 7]
      = .ok ⟨(xfer_upload described_xfer 7).1, zero_buffer⟩ := rfl
  have T := fence_set_only_by_upload [sample_start, .upload 7] fresh_slot _ (by decide) hrun
  exact ⟨by decide, by decide, T.1 (by decide)⟩

/-- C6, as the claim states it, fails: on a freshly initialised slot, `xfer_upload` right
after `xfer_start`, without an `xfer_blit`, is not rejected and makes the fence non-null;
`xfer_upload` on a slot in flight is not rejected and replaces the fence; and after
`xfer_finish` has returned the slot to a null fence, `xfer_upload` without a new
`xfer_start` and `xfer_blit` makes the fence non-null again. -/
theorem xfer_upload_without_blit :
    fresh_slot.xfer.syncpt = 0 ∧
    (run fresh_slot [sample_start, .upload 7]).map (fun s => s.xfer.syncpt) = .ok 7 ∧
    (run fresh_slot [sample_start, .blit sample_image, .upload 7, .upload 9]).map
      (fun s => s.xfer.syncpt) = .ok 9 ∧
    (run fresh_slot [sample_start, .blit sample_image, .upload 7,
      .finish 0 0 0 0 .other .SIGNALED]).map (fun s => s.xfer.syncpt) = .ok 0 ∧
    (run fresh_slot [sample_start, .blit sample_image, .upload 7,
      .finish 0 0 0 0 .other .SIGNALED, .upload 9]).map (fun s => s.xfer.syncpt) = .ok 9 := by
  decide

/-! ## Pipeline initialisation: failure paths -/

theorem init_xfers_flag (drv : Driver) (xfers : List Xfer) :
    (init_xfers drv xfers).2 = false := by
  unfold init_xfers
  generalize List.range XFER_NUM_BUFFERS = l
  have key : ∀ (l : List Nat) (acc : List Xfer × Bool), acc.2 = false →
      (l.foldl
        (fun (acc : List Xfer × Bool) (i : Nat) =>
          if acc.2 then acc
          else
            let r := xfer_init (acc.1.getD i Xfer.zero) XFER_BUFFER_SIZE (drv.buffer_name i)
              (drv.buffer_map i)
            (acc.1.set i r.1, decide (r.2 ≠ 0))) acc).2 = false := by
    intro l
    induction l with
    | nil => intro acc h; simpa using h
    | cons i l ih =>
      intro acc h
      rw [List.foldl_cons]
      apply ih
      simp [h, xfer_init]
  exact key l _ rfl

theorem gfx_init_formats_eq (drv : Driver) (gfx : Gfx) (g : Geometry)
    (hg : drv.formats.foldlM (discover_format GL_COMPRESSED_RGBA_ASTC_8x8_KHR)
      (⟨-1, 0, 0, 0, 0, 0, 0⟩ : Geometry) = .ok g) :
    gfx_init_formats drv gfx GL_COMPRESSED_RGBA_ASTC_8x8_KHR =
      if drv.program = 0 then
        .ok ⟨{ gfx with vao := drv.vao, program := drv.program }, drv.buffer_mem, [], -1⟩
      else gfx_init_texture drv { gfx with vao := drv.vao, program := drv.program }
        GL_COMPRESSED_RGBA_ASTC_8x8_KHR g := by
  unfold gfx_init_formats
  rw [hg]

theorem gfx_init_eq (drv : Driver) (texmmap : Nat) (hptr : drv.texmmap_ptr ≠ 0) :
    gfx_init drv texmmap =
      gfx_init_formats drv
        { Gfx.zero with texmmap := texmmap, xfers := (init_xfers drv Gfx.zero.xfers).1 }
        GL_COMPRESSED_RGBA_ASTC_8x8_KHR := by
  unfold gfx_init
  rw [if_neg hptr]
  have hflag := init_xfers_flag drv Gfx.zero.xfers
  show (if (init_xfers drv Gfx.zero.xfers).2 = true then _ else _) = _
  rw [hflag, if_neg (by decide)]

/-- C5: `gfx_init` misses two of the failures it should report.  With a driver whose buffer
mapping of slot 1 returns null, everything else succeeding, `gfx_init` returns `0`: the
test `xfer_init(...) != 0` of the slot loop never fires, `xfer_init` storing the pointer
unchecked.  With a driver that does not report ASTC 8x8, everything else succeeding,
`gfx_init` does not return a negative value either: the block width stays `0` and the
division `tex_width / block_width` is undefined. -/
theorem gfx_init_misses_failures :
    map_fail_driver.buffer_map 1 = 0 ∧
    (gfx_init map_fail_driver 1).map (fun r => r.ret) = .ok 0 ∧
    (∀ f ∈ no_astc_driver.formats, f.fmt ≠ GL_COMPRESSED_RGBA_ASTC_8x8_KHR) ∧
    (gfx_init no_astc_driver 1).map (fun r => r.ret) = .error .divByZero := by
  decide

/-! ## Pipeline initialisation: source of the streaming transfer -/

theorem init_xfers_fold_head (drv : Driver) (l : List Nat) (h : ∀ i ∈ l, i ≠ 0)
    (acc : List Xfer × Bool) :
    (l.foldl
      (fun (acc : List Xfer × Bool) (i : Nat) =>
        if acc.2 then acc
        else
          let r := xfer_init (acc.1.getD i Xfer.zero) XFER_BUFFER_SIZE (drv.buffer_name i)
            (drv.buffer_map i)
          (acc.1.set i r.1, decide (r.2 ≠ 0))) acc).1.getD 0 Xfer.zero
      = acc.1.getD 0 Xfer.zero := by
  induction l generalizing acc with
  | nil => rfl
  | cons i l ih =>
    rw [List.foldl_cons, ih (fun j hj => h j (List.mem_cons_of_mem _ hj))]
    have hi : i ≠ 0 := h i (List.mem_cons_self _ _)
    by_cases hacc : acc.2 = true
    · rw [if_pos hacc]
    · rw [if_neg hacc]
      simp only [List.getD_eq_getElem?_getD]
      rw [List.getElem?_set_ne hi]

theorem init_xfers_slot0 (drv : Driver) :
    ((init_xfers drv Gfx.zero.xfers).1.getD 0 Xfer.zero).pbo_buffer = drv.buffer_map 0 := by
  unfold init_xfers
  have hr : List.range XFER_NUM_BUFFERS = 0 :: (List.range 15).map Nat.succ := by decide
  rw [hr, List.foldl_cons, init_xfers_fold_head drv _ (by simp)]
  rfl

theorem init_transfer_source (drv : Driver) (gfx : Gfx) (page_height : Int) (r : InitResult)
    (h : init_transfer drv gfx page_height = .ok r) (hptr : drv.texmmap_ptr ≠ 0)
    (hbuf : (gfx.xfers.getD 0 Xfer.zero).pbo_buffer ≠ 0) :
    r.ret = 0 ∧ r.gfx = { gfx with xfers := r.gfx.xfers } ∧
    ∀ row j : Int, 0 ≤ row → row < (4 * gfx.page_width).tdiv gfx.block_height →
      0 ≤ j → j < (4 * gfx.page_width).tdiv gfx.block_width * gfx.block_size.tdiv 8 →
      r.buffer (row * ((4 * gfx.page_width).tdiv gfx.block_width * gfx.block_size.tdiv 8) + j)
        = drv.file (((8 * page_height).tdiv gfx.block_height + row)
            * (gfx.tex_width.tdiv gfx.block_width * gfx.block_size.tdiv 8)
          + (16 * gfx.page_width).tdiv gfx.block_width * gfx.block_size.tdiv 8 + j) := by
  unfold init_transfer at h
  simp only [bind_eq_ok, idiv_eq_ok, imul_eq_ok, pure, Except.pure] at h
  obtain ⟨_, ⟨_, _, rfl⟩, _, ⟨_, _, rfl⟩, _, ⟨_, rfl⟩, _, ⟨_, rfl⟩, _, ⟨_, rfl⟩, _, ⟨_, rfl⟩,
    _, ⟨_, rfl⟩, k, hstart, blit, hblit, up, hup, hr⟩ := h
  have hk : k = 0 := ((xfer_start_eq_ok _ _ _ _ _ _ _ _ _ _ _ _ _ _ _).mp hstart).1
  subst hk
  have hfields := xfer_start_fields _ _ _ _ _ _ _ _ _ _ _ _ _ _ _ hstart
  rw [xfer_blit_eq_ok, hfields] at hblit
  obtain ⟨_, hblit⟩ := hblit
  simp only [if_neg hptr, if_neg hbuf] at hblit
  obtain ⟨_, out, hout, hread⟩ := blockblit2d_read _ _ _ _ _ _ _ _ _ _ _ (le_refl _) _ hblit
  injection hr with hr
  rw [← hr]
  refine ⟨rfl, rfl, ?_⟩
  intro row j h0 hlt hj0 hjn
  simp only [hout, Option.getD_some]
  exact hread row j h0 hlt hj0 hjn

theorem gfx_init_texture_source (drv : Driver) (gfx : Gfx) (tex_format : Int) (g : Geometry)
    (r : InitResult) (h : gfx_init_texture drv gfx tex_format g = .ok r)
    (hptr : drv.texmmap_ptr ≠ 0) (hbuf : (gfx.xfers.getD 0 Xfer.zero).pbo_buffer ≠ 0) :
    (r.gfx.page_width = g.page_width ∧ r.gfx.page_height = g.page_height ∧
      r.gfx.block_width = g.block_width ∧ r.gfx.block_height = g.block_height ∧
      r.gfx.block_size = g.block_size ∧ r.gfx.tex_width = header_field drv.file 7) ∧
    ∀ row j : Int, 0 ≤ row → row < (4 * g.page_width).tdiv g.block_height →
      0 ≤ j → j < (4 * g.page_width).tdiv g.block_width * g.block_size.tdiv 8 →
      r.buffer (row * ((4 * g.page_width).tdiv g.block_width * g.block_size.tdiv 8) + j)
        = drv.file (((8 * g.page_height).tdiv g.block_height + row)
            * ((header_field drv.file 7).tdiv g.block_width * g.block_size.tdiv 8)
          + (16 * g.page_width).tdiv g.block_width * g.block_size.tdiv 8 + j) := by
  unfold gfx_init_texture at h
  obtain ⟨_, hgfx, hread⟩ := init_transfer_source drv _ g.page_height r h hptr hbuf
  refine ⟨⟨?_, ?_, ?_, ?_, ?_, ?_⟩, hread⟩ <;> rw [hgfx]

/-- For every driver with which `gfx_init` returns `0` (the buffer of slot 0 being mapped),
the byte that the streaming transfer places at offset `row*dst_pitch + j` of the buffer of
slot 0 is the byte of the image file at offset
`(src_y/block_height + row)*src_pitch + (src_x/block_width)*(block_size/8) + j`, counted
from the start of the file: the 16 bytes of the header are not skipped. -/
theorem gfx_init_transfer_reads (drv : Driver) (texmmap : Nat) (r : InitResult)
    (h : gfx_init drv texmmap = .ok r) (hret : r.ret = 0) (hbuf : drv.buffer_map 0 ≠ 0) :
    ∀ row j : Int, 0 ≤ row → row < (4 * r.gfx.page_width).tdiv r.gfx.block_height →
      0 ≤ j →
      j < (4 * r.gfx.page_width).tdiv r.gfx.block_width * r.gfx.block_size.tdiv 8 →
      r.buffer (row * ((4 * r.gfx.page_width).tdiv r.gfx.block_width
          * r.gfx.block_size.tdiv 8) + j)
        = drv.file (((8 * r.gfx.page_height).tdiv r.gfx.block_height + row)
            * (r.gfx.tex_width.tdiv r.gfx.block_width * r.gfx.block_size.tdiv 8)
          + (16 * r.gfx.page_width).tdiv r.gfx.block_width * r.gfx.block_size.tdiv 8
          + j) := by
  by_cases hptr : drv.texmmap_ptr = 0
  · unfold gfx_init at h
    rw [if_pos hptr] at h
    injection h with h
    rw [← h] at hret
    have hc : (-1 : Int) = 0 := hret
    exact absurd hc (by decide)
  · rw [gfx_init_eq drv texmmap hptr] at h
    generalize hG : ({ Gfx.zero with
      texmmap := texmmap, xfers := (init_xfers drv Gfx.zero.xfers).1 } : Gfx) = G at h
    have hGx : G.xfers = (init_xfers drv Gfx.zero.xfers).1 := by rw [← hG]
    cases hg : drv.formats.foldlM (discover_format GL_COMPRESSED_RGBA_ASTC_8x8_KHR)
        (⟨-1, 0, 0, 0, 0, 0, 0⟩ : Geometry) with
    | error e =>
      unfold gfx_init_formats at h
      rw [hg] at h
      exact absurd h (by intro hc; cases hc)
    | ok g =>
      rw [gfx_init_formats_eq drv _ g hg] at h
      by_cases hprog : drv.program = 0
      · rw [if_pos hprog] at h
        injection h with h
        rw [← h] at hret
        have hc : (-1 : Int) = 0 := hret
        exact absurd hc (by decide)
      · rw [if_neg hprog] at h
        have hb : (G.xfers.getD 0 Xfer.zero).pbo_buffer ≠ 0 := by
          rw [hGx, init_xfers_slot0]
          exact hbuf
        obtain ⟨⟨h1, h2, h3, h4, h5, h6⟩, hread⟩ :=
          gfx_init_texture_source drv _ _ g r h hptr hb
        rw [h1, h2, h3, h4, h5, h6]
        exact hread

/-- The block copy of `gfx_page_commit` reads the byte for offset `row*dst_pitch + j` of the
page buffer at offset
`16 + (src_y/block_height + row)*src_pitch + (src_x/block_width)*(block_size/8) + j` of the
image file, after the header. -/
theorem gfx_page_commit_source (gfx : Gfx) (page_x page_y : Int) (file pagebuffer : Mem)
    (r : BlitResult) (h : gfx_page_commit gfx page_x page_y file pagebuffer = .ok r)
    (hp : gfx.page_width.tdiv gfx.block_width * gfx.block_size.tdiv 8
      ≤ 512 / 8 * gfx.block_size.tdiv 8) :
    ∃ out, r.dst = some out ∧
      ∀ row j : Int, 0 ≤ row → row < gfx.page_height.tdiv gfx.block_height →
        0 ≤ j → j < gfx.page_width.tdiv gfx.block_width * gfx.block_size.tdiv 8 →
        out (row * (512 / 8 * gfx.block_size.tdiv 8) + j)
          = file (16 + (((page_y * gfx.page_height).tdiv gfx.block_height + row)
              * (gfx.tex_width.tdiv gfx.block_width * gfx.block_size.tdiv 8)
            + (page_x * gfx.page_width).tdiv gfx.block_width * gfx.block_size.tdiv 8
            + j)) := by
  unfold gfx_page_commit at h
  simp only [bind_eq_ok, idiv_eq_ok, imul_eq_ok] at h
  obtain ⟨_, ⟨_, _, rfl⟩, _, ⟨_, _, rfl⟩, _, ⟨_, rfl⟩, _, ⟨_, rfl⟩, _, ⟨_, rfl⟩, _, ⟨_, rfl⟩,
    h⟩ := h
  obtain ⟨_, out, hout, hread⟩ := blockblit2d_read _ _ _ _ _ _ _ _ _ _ _ hp _ h
  exact ⟨out, hout, hread⟩

/-- C9: with the sample driver `gfx_init` returns `0`, and the first byte of the buffer of
slot 0 (`row = 0`, `j = 0`, `dst_pitch = 128`) is the byte of the image file at offset
`(src_y/block_height + 0)*src_pitch + (src_x/block_width)*(block_size/8) + 0 = 16896`, with
`src_x = 256`, `src_y = 128`, `src_pitch = 1024`; the claim names offset `16 + 16896`,
which holds another byte.  The block copy of `gfx_page_commit` for page `(1, 1)` of the
same pipeline does skip the header: it reads offset `16 + 2080`. -/
theorem gfx_init_transfer_source :
    (gfx_init sample_driver 1).map (fun r => (r.ret, r.buffer (0 * 128 + 0)))
      = .ok (0, sample_file (((128 : Int).tdiv 8 + 0) * 1024
          + (256 : Int).tdiv 8 * (128 : Int).tdiv 8 + 0)) ∧
    sample_file (((128 : Int).tdiv 8 + 0) * 1024 + (256 : Int).tdiv 8 * (128 : Int).tdiv 8 + 0)
      ≠ sample_file (16 + (((128 : Int).tdiv 8 + 0) * 1024
          + (256 : Int).tdiv 8 * (128 : Int).tdiv 8 + 0)) ∧
    (gfx_page_commit sample_gfx 1 1 sample_file zero_buffer).map
        (fun r => (r.dst.getD zero_buffer) (0 * 1024 + 0))
      = .ok (sample_file (16 + (((16 : Int).tdiv 8 + 0) * 1024
          + (16 : Int).tdiv 8 * (128 : Int).tdiv 8 + 0))) := by
  decide

end SparseDemo
